import Mathlib

/-!
# Fleetlink front end: client-side rules of the booking pages

A shallow embedding of the decision logic of `src/pages/Bookings.jsx`,
`src/pages/SearchAndBook.jsx` and `src/pages/AddVehicle.jsx`, of the notification
queue of `src/hooks/useToast.js` and of the domain API functions of `src/api`.

Conventions of the embedding.

* A `Date` object is represented by its time value, an integer number of
  milliseconds since the epoch. `new Date(x.getTime() + k)` is `x + k`. Where a
  date is parsed from backend data (`new Date(booking.startTime)`) the result can
  be an Invalid Date, whose time value is NaN; such a date is `none`, and every
  relational comparison with it is `false`, as in JavaScript. The range limit of
  `Date` (8.64e15 ms around the epoch) is not modelled.
* Form fields are JavaScript strings, represented by `String`. `parseInt`
  yields `none` for NaN and otherwise the mathematical integer denoted by the
  digits it consumed; the rounding of integers above 2^53 to doubles is not
  modelled (it is monotone, so it does not change a comparison with 0, 2, 20 or
  100000).
* An asynchronous handler is a function from the state before the call, the
  clock reading and the outcome of the awaited request to the state after the
  call together with the effects it produced (requests issued, notifications
  shown).
* The identifier of a notification is the double that `Date.now() + Math.random()`
  evaluates to, kept as a rational number.
* Timers are kept as the clock reading at which they are due; when the clock is
  advanced, the timers due by the new reading have run. JavaScript only promises
  that a timer does not run early; the delay added by a busy event loop is not
  modelled.
-/

namespace Fleetlink

/-! ## JavaScript values used as identifiers -/

/-- The JavaScript values an identifier field (`_id`, `id`) of a backend record can hold. -/
inductive JsVal where
  | undefined
  | null
  | str (s : String)
  | num (n : Int)
  deriving DecidableEq, Repr

/-- ToBoolean, on the values of `JsVal`. -/
def JsVal.truthy : JsVal → Bool
  | .undefined => false
  | .null => false
  | .str s => s ≠ ""
  | .num n => n ≠ 0

/-- The operator `a || b`. -/
def jsOr (a b : JsVal) : JsVal := if a.truthy then a else b

/-- The operator `a || b` where `a` is a string or undefined and `b` a string literal. -/
def strOr (a : Option String) (b : String) : String :=
  match a with
  | some s => if s ≠ "" then s else b
  | none => b

/-! ## JavaScript strings -/

/-- The code points of WhiteSpace and LineTerminator: what `String.prototype.trim` strips,
what `parseInt` skips and what the regular-expression class `\s` matches. -/
def isJsWhiteSpace (c : Char) : Bool :=
  let n := c.toNat
  n == 0x09 || n == 0x0A || n == 0x0B || n == 0x0C || n == 0x0D || n == 0x20 || n == 0xA0 ||
  n == 0x1680 || (0x2000 ≤ n && n ≤ 0x200A) || n == 0x2028 || n == 0x2029 || n == 0x202F ||
  n == 0x205F || n == 0x3000 || n == 0xFEFF

/-- White space removed from both ends of a list of characters. -/
def trimChars (l : List Char) : List Char :=
  ((l.dropWhile isJsWhiteSpace).reverse.dropWhile isJsWhiteSpace).reverse

/-- `String.prototype.trim`. -/
def jsTrim (s : String) : String := String.mk (trimChars s.data)

/-- The property `length` of a string: its number of UTF-16 code units. -/
def jsLength (s : String) : Nat :=
  (s.data.map (fun c => if c.toNat < 0x10000 then 1 else 2)).sum

/-- `String.prototype.toUpperCase` on ASCII letters. The only strings the pages upper-case
have passed the registration-number pattern, whose only cased characters are ASCII letters. -/
def jsToUpperCase (s : String) : String := String.mk (s.data.map Char.toUpper)

/-- The value of a character as a digit in a radix up to 16, if it is one. -/
def digitVal (c : Char) : Option Nat :=
  let n := c.toNat
  if 48 ≤ n ∧ n ≤ 57 then some (n - 48)
  else if 97 ≤ n ∧ n ≤ 102 then some (n - 87)
  else if 65 ≤ n ∧ n ≤ 70 then some (n - 55)
  else none

/-- The value of a character as a radix-`R` digit, if it is one. -/
def radixDigit (R : Nat) (c : Char) : Option Nat :=
  (digitVal c).filter (fun d => d < R)

/-- The input of `parseInt` after white space and one sign character are removed. -/
def stripSign (l : List Char) : List Char :=
  match l with
  | c :: r => if c = '-' ∨ c = '+' then r else l
  | [] => []

/-- Whether the digits of `parseInt` start with the hexadecimal prefix `0x` or `0X`. -/
def hasHexPrefix (l : List Char) : Bool :=
  match l with
  | a :: b :: _ => a == '0' && (b == 'x' || b == 'X')
  | _ => false

/-- `parseInt(string)` with no radix argument: skip white space, read a sign, read the
prefix `0x`/`0X` (radix 16, else radix 10), take the longest run of digits; NaN (`none`)
when that run is empty. -/
def jsParseInt (s : String) : Option Int :=
  let s1 := s.data.dropWhile isJsWhiteSpace
  let sign : Int := if s1.head? = some '-' then -1 else 1
  let s2 := stripSign s1
  let R : Nat := if hasHexPrefix s2 then 16 else 10
  let s3 := if hasHexPrefix s2 then s2.drop 2 else s2
  let Z := s3.takeWhile (fun c => (radixDigit R c).isSome)
  if Z.isEmpty then none
  else some (sign * ((Z.foldl (fun acc c => acc * R + (radixDigit R c).getD 0) 0 : Nat) : Int))

/-- The test of the pattern `^\d{6}$`: read six characters of the class `\d` (the digits
`0` to `9`) from the start of the input, then require the end of the input. -/
def matchDigits : Nat → List Char → Option (List Char)
  | 0, l => some l
  | _ + 1, [] => none
  | n + 1, c :: r => if c.isDigit then matchDigits n r else none

/-- The call `/^\d{6}$/.test(s)`. -/
def testSixDigits (s : String) : Bool :=
  match matchDigits 6 s.data with
  | some [] => true
  | _ => false

/-- The class `[A-Z0-9\-\s]` under the flag `i`: a character matches `A-Z` when its
canonical (upper-case) form lies in `A-Z`, and without the flag `u` a character outside
ASCII is never canonicalised into ASCII, so the letters matched are `A-Z` and `a-z`. -/
def regClass (c : Char) : Bool :=
  c.toUpper.isUpper || c.isDigit || c == '-' || isJsWhiteSpace c

/-- The call `/^[A-Z0-9\-\s]+$/i.test(s)`: one or more characters of the class, taken
greedily from the start of the input, then the end of the input. -/
def testRegistration (s : String) : Bool :=
  let rest := s.data.dropWhile regClass
  decide (rest.length < s.data.length) && rest.isEmpty

/-! ## Notifications and request outcomes -/

/-- The severity of a notification. -/
inductive ToastType where
  | success
  | error
  | warning
  | info
  deriving DecidableEq, Repr

/-- A call of `showToast(message, type, duration)`. -/
structure ToastCall where
  type : ToastType
  message : String
  duration : Nat
  deriving DecidableEq, Repr

/-- `showSuccess(message)`: the default duration is 4000 ms. -/
def showSuccess (message : String) : ToastCall := ⟨.success, message, 4000⟩

/-- `showError(message)`: the default duration is 6000 ms. -/
def showError (message : String) : ToastCall := ⟨.error, message, 6000⟩

/-- `showWarning(message)`: the default duration is 5000 ms. -/
def showWarning (message : String) : ToastCall := ⟨.warning, message, 5000⟩

/-- What a handler observes when it awaits a domain API function: a result with
`success: true` (its data and optional message), a result with `success: false` (its
`error` field), or an exception. -/
inductive ApiOutcome (α : Type) where
  | ok (data : α) (message : Option String)
  | fail (error : Option String)
  | thrown
  deriving Repr

/-! ## Notification queue (`src/hooks/useToast.js`) -/

/-- A notification of the state `toasts`. The identifier is a number, kept as the rational
value of the double. -/
structure Toast where
  id : ℚ
  message : String
  type : ToastType
  duration : Nat
  deriving DecidableEq

/-- The integer nearest to `x`, a tie going to the even one: the rounding of the last
place of a double. -/
def roundHalfEven (x : ℚ) : ℤ :=
  if x - ⌊x⌋ < 1 / 2 then ⌊x⌋
  else if 1 / 2 < x - ⌊x⌋ then ⌊x⌋ + 1
  else if ⌊x⌋ % 2 = 0 then ⌊x⌋ else ⌊x⌋ + 1

/-- The distance between neighbouring doubles around `x`: `2 ^ (e - 52)` for
`2 ^ e ≤ |x| < 2 ^ (e + 1)`. -/
def doubleSpacing (x : ℚ) : ℚ := (2 : ℚ) ^ (Int.log 2 |x| - 52)

/-- The double nearest to `x`, as the addition of two numbers yields it (round to nearest,
ties to even). A value of magnitude `2 ^ 53` or more is left as it is: the sum of a clock
reading, at most 8.64e15 in magnitude, and a draw below 1 does not reach it. -/
def roundDouble (x : ℚ) : ℚ :=
  if x = 0 ∨ 2 ^ 53 ≤ |x| then x
  else doubleSpacing x * roundHalfEven (x / doubleSpacing x)

/-- The expression `Date.now() + Math.random()`, for the clock reading `now` and the draw
`random`, which `Math.random` takes from the interval from 0 (included) to 1 (excluded): the
double nearest to the sum. -/
def toastId (now : Int) (random : ℚ) : ℚ := roundDouble (now + random)

/-- The state update of `showToast`: `setToasts(prev => [...prev, newToast])`. -/
def showToast (now : Int) (random : ℚ) (message : String) (type : ToastType) (duration : Nat)
    (prev : List Toast) : List Toast :=
  let id := toastId now random
  let newToast : Toast := { id := id, message := message, type := type, duration := duration }
  prev ++ [newToast]

/-- `removeToast`: `setToasts(prev => prev.filter(toast => toast.id !== id))`. -/
def removeToast (id : ℚ) (prev : List Toast) : List Toast :=
  prev.filter (fun toast => toast.id ≠ id)

/-- A call of `setTimeout` whose callback removes the notification `id`, by its delay. -/
structure RemovalTimer where
  delay : Nat
  id : ℚ
  deriving DecidableEq

/-- The timer that `showToast` schedules: `setTimeout(..., duration + 300)`. -/
def showToastTimer (now : Int) (random : ℚ) (duration : Nat) : RemovalTimer :=
  { delay := duration + 300, id := toastId now random }

/-- The callback of the timer, as a state update. -/
def RemovalTimer.fire (timer : RemovalTimer) (prev : List Toast) : List Toast :=
  prev.filter (fun toast => toast.id ≠ timer.id)

/-- What `ToastContainer` renders: one `Toast` per notification, in the order of the list,
with its key and its properties. -/
def toastContainer (toasts : List Toast) : List (ℚ × ToastCall) :=
  toasts.map (fun toast => (toast.id, ⟨toast.type, toast.message, toast.duration⟩))

/-- A timer that has been scheduled and has not fired: the clock reading at which it is due
and the identifier its callback removes. -/
structure PendingTimer where
  due : Int
  id : ℚ
  deriving DecidableEq

/-- The notification queue in time: the clock, the active list and the pending timers. -/
structure ToastState where
  now : Int
  toasts : List Toast
  timers : List PendingTimer

/-- What happens to the queue: a call of `showToast` (with the draw of `Math.random`), a
call of `removeToast` (manual close, or the `onClose` of the `Toast` component), or the
passing of `dt` milliseconds. -/
inductive ToastEvent where
  | show (random : ℚ) (message : String) (type : ToastType) (duration : Nat)
  | dismiss (id : ℚ)
  | advance (dt : Nat)

/-- The draw of a `show` event lies in the range of `Math.random`. -/
def ToastEvent.wellFormed : ToastEvent → Prop
  | .show random _ _ _ => 0 ≤ random ∧ random < 1
  | .dismiss _ => True
  | .advance _ => True

/-- The callbacks of the given timers, run in order on the active list. -/
def fireTimers (timers : List PendingTimer) (toasts : List Toast) : List Toast :=
  timers.foldl (fun prev timer => removeToast timer.id prev) toasts

/-- One event of the queue. When time passes, every timer that is due by the new clock
reading has fired, in the order of scheduling, and is no longer pending. -/
def toastStep (s : ToastState) (e : ToastEvent) : ToastState :=
  match e with
  | .show random message type duration =>
    { s with
      toasts := showToast s.now random message type duration s.toasts
      timers := s.timers ++
        [{ due := s.now + (showToastTimer s.now random duration).delay
           id := (showToastTimer s.now random duration).id }] }
  | .dismiss id => { s with toasts := removeToast id s.toasts }
  | .advance dt =>
    { now := s.now + dt
      toasts := fireTimers (s.timers.filter (fun timer => timer.due ≤ s.now + dt)) s.toasts
      timers := s.timers.filter (fun timer => ¬ timer.due ≤ s.now + dt) }

/-- A sequence of events of the queue. -/
def toastRun (s : ToastState) (events : List ToastEvent) : ToastState :=
  events.foldl toastStep s

/-! ## HTTP client and domain API functions (`src/api`) -/

/-- The JavaScript values that responses and errors are made of: the primitive values,
arrays and plain objects (a list of keys with their values). -/
inductive Js where
  | undefined
  | null
  | bool (b : Bool)
  | num (x : ℚ)
  | str (s : String)
  | arr (items : List Js)
  | obj (fields : List (String × Js))

/-- Whether a value is `null` or `undefined`. -/
def Js.isNullish : Js → Bool
  | .undefined => true
  | .null => true
  | _ => false

/-- ToBoolean. -/
def Js.truthy : Js → Bool
  | .undefined => false
  | .null => false
  | .bool b => b
  | .num x => x ≠ 0
  | .str s => s ≠ ""
  | .arr _ => true
  | .obj _ => true

/-- The value read for a key that is one of `response`, `data`, `message`, `status`: the
field of an object, and `undefined` when the object has no such field or the value is a
primitive or an array. -/
def Js.get (v : Js) (key : String) : Js :=
  match v with
  | .obj fields => (fields.lookup key).getD .undefined
  | _ => .undefined

/-- The `TypeError` thrown when a property of `null` or `undefined` is read: an object with
a message and no `response`. -/
def typeError : Js :=
  .obj [("name", .str "TypeError"), ("message", .str "Cannot read properties of undefined")]

/-- The member access `v.key`: it throws a `TypeError` when `v` is `null` or `undefined`. -/
def Js.prop (v : Js) (key : String) : Except Js Js :=
  if v.isNullish then .error typeError else .ok (v.get key)

/-- The optional member access `v?.key`. -/
def Js.optProp (v : Js) (key : String) : Js :=
  if v.isNullish then .undefined else v.get key

/-- The operator `a || b` on values. -/
def Js.or (a b : Js) : Js := if a.truthy then a else b

/-- A settled promise: fulfilled with a value or rejected with a reason. -/
inductive Settled where
  | resolved (value : Js)
  | rejected (reason : Js)

/-- The response interceptor of `apiClient` (`src/api/axios.js`), applied to the outcome of
the HTTP call: a response is passed on; for an error the handler reads
`error.response?.data?.message`, which throws a `TypeError` when `error` itself is `null` or
`undefined`, and otherwise ends with `Promise.reject(error)`. -/
def responseInterceptor (outcome : Settled) : Settled :=
  match outcome with
  | .resolved response => .resolved response
  | .rejected error =>
    if error.isNullish then .rejected typeError else .rejected error

/-- The domain API functions of `bookingApi.js` and `vehicleApi.js`. -/
inductive ApiFn where
  | createBooking
  | getBookings
  | getBookingById
  | cancelBooking
  | deleteBooking
  | updateBookingStatus
  | getCustomerBookings
  | getUpcomingBookings
  | getBookingStats
  | checkBookingConflicts
  | addVehicle
  | getVehicles
  | searchAvailableVehicles
  | getVehicleById
  | updateVehicle
  | deleteVehicle
  | getVehicleStats
  deriving DecidableEq, Repr

/-- The literal after `||` in the `error` field of the `catch` block of each function. -/
def ApiFn.genericMessage : ApiFn → String
  | .createBooking => "Failed to create booking"
  | .getBookings => "Failed to fetch bookings"
  | .getBookingById => "Failed to fetch booking details"
  | .cancelBooking => "Failed to cancel booking"
  | .deleteBooking => "Failed to delete booking"
  | .updateBookingStatus => "Failed to update booking status"
  | .getCustomerBookings => "Failed to fetch customer bookings"
  | .getUpcomingBookings => "Failed to fetch upcoming bookings"
  | .getBookingStats => "Failed to fetch booking statistics"
  | .checkBookingConflicts => "Failed to check booking conflicts"
  | .addVehicle => "Failed to add vehicle"
  | .getVehicles => "Failed to fetch vehicles"
  | .searchAvailableVehicles => "Failed to search vehicles"
  | .getVehicleById => "Failed to fetch vehicle details"
  | .updateVehicle => "Failed to update vehicle"
  | .deleteVehicle => "Failed to delete vehicle"
  | .getVehicleStats => "Failed to fetch vehicle statistics"

/-- The literal of the `message` field of the success result, for the functions that set
one. -/
def ApiFn.successMessage : ApiFn → Js
  | .createBooking => .str "Booking created successfully"
  | .cancelBooking => .str "Booking cancelled successfully"
  | .deleteBooking => .str "Booking deleted successfully"
  | .updateBookingStatus => .str "Booking status updated successfully"
  | .addVehicle => .str "Vehicle added successfully"
  | .updateVehicle => .str "Vehicle updated successfully"
  | .deleteVehicle => .str "Vehicle deleted successfully"
  | _ => .undefined

/-- The value a domain API function returns: `{success: true, data, message}` or
`{success: false, error, details}`; a key that the object does not have reads as
`undefined`. -/
inductive ApiResult where
  | success (data : Js) (message : Js)
  | failure (error : Js) (details : Js)

/-- The `try` block of a domain API function after `await`: the success result built from
the response, or the exception thrown while building it. -/
def successResult (f : ApiFn) (response : Js) : Except Js ApiResult :=
  match f with
  | .getBookings => do
    let backendResponse ← response.prop "data"
    let data ← backendResponse.prop "data"
    let message ← backendResponse.prop "message"
    pure (.success (.obj [("bookings", Js.or data (.arr []))]) message)
  | .searchAvailableVehicles => do
    let backendResponse ← response.prop "data"
    let data ← backendResponse.prop "data"
    let message ← backendResponse.prop "message"
    pure (.success (Js.or data backendResponse) message)
  | _ => do
    let data ← response.prop "data"
    pure (.success data f.successMessage)

/-- The `catch` block of a domain API function: the failure result built from the error, or
the exception thrown while building it. -/
def failureResult (f : ApiFn) (error : Js) : Except Js ApiResult := do
  let response ← error.prop "response"
  let message := (response.optProp "data").optProp "message"
  let details := response.optProp "data"
  pure (.failure (Js.or message (.str f.genericMessage)) details)

/-- A domain API function, applied to the settled promise of its `apiClient` call: the
value its promise resolves with (`ok`) or the reason it rejects with (`error`). -/
def callApi (f : ApiFn) (http : Settled) : Except Js ApiResult :=
  match http with
  | .resolved response =>
    match successResult f response with
    | .ok result => .ok result
    | .error error => failureResult f error
  | .rejected error => failureResult f error

/-- The body of the response that an error carries, `undefined` when it carries none. -/
def responseBody (error : Js) : Js := (error.get "response").get "data"

/-- The message of the body of the response that an error carries. -/
def backendMessage (error : Js) : Js := (responseBody error).get "message"

/-! ## Bookings page (`src/pages/Bookings.jsx`) -/

/-- A booking record as the bookings page reads it. `startTime` and `createdAt` hold the
time value of `new Date(booking.startTime)` and `new Date(booking.createdAt)`. -/
structure Booking where
  _id : JsVal
  id : JsVal
  status : String
  startTime : Option Int
  createdAt : Option Int
  deriving DecidableEq, Repr

/-- The comparison `a > b` of a possibly invalid date `a` with a valid date `b`. -/
def dateGt (a : Option Int) (b : Int) : Bool :=
  match a with
  | some t => decide (b < t)
  | none => false

/-- `canCancelBooking` of `Bookings.jsx`, with the reading `now` of `new Date()`. -/
def canCancelBooking (now : Int) (booking : Booking) : Bool :=
  let startTime := booking.startTime
  let oneHourFromNow := now + 60 * 60 * 1000
  ["pending", "confirmed"].contains booking.status && dateGt startTime oneHourFromNow

/-- `canDeleteBooking` of `Bookings.jsx`. -/
def canDeleteBooking (booking : Booking) : Bool :=
  ["completed", "cancelled"].contains booking.status

/-! ### Fetching the bookings -/

/-- The value of `result.data.bookings || result.data || []` after a successful
`getBookings`: an array of booking records, or a value that is not an array. -/
inductive BookingsPayload where
  | array (bookings : List Booking)
  | notArray

/-- The state of the bookings page. The object `actionLoading` is kept as its entries, a
property key with its value, the first entry of a key being the one that is read. -/
structure BookingsPage where
  bookings : List Booking
  loading : Bool
  actionLoading : List (String × String) := []
  filter : String := "all"
  deriving DecidableEq, Repr

/-- The comparator `(a, b) => new Date(b.createdAt) - new Date(a.createdAt)`; `none` is
NaN, the difference when one of the dates is invalid. -/
def compareCreatedAt (a b : Booking) : Option Int :=
  match b.createdAt, a.createdAt with
  | some tb, some ta => some (tb - ta)
  | _, _ => none

/-- Whether the sort leaves `a` before `b`: the comparator is not positive, a NaN counting
as zero. -/
def keepsBefore (a b : Booking) : Bool :=
  match compareCreatedAt a b with
  | some v => decide (v ≤ 0)
  | none => true

/-- One element put into a sorted list, before the first element it may stay before. -/
def insertBooking (a : Booking) : List Booking → List Booking
  | [] => [a]
  | b :: l => if keepsBefore a b then a :: b :: l else b :: insertBooking a l

/-- `Array.prototype.sort` with the comparator of `fetchBookings`. The sort is stable, so
with a consistent comparator (all dates valid) its result is the one stable sorted
arrangement of the array, which insertion from the right computes. -/
def sortBookings : List Booking → List Booking
  | [] => []
  | a :: l => insertBooking a (sortBookings l)

/-- `fetchBookings`, with the outcome of `getBookings`: the state after it and the
notifications shown. -/
def fetchBookings (outcome : ApiOutcome BookingsPayload) (s : BookingsPage) :
    BookingsPage × List ToastCall :=
  match outcome with
  | .ok data _ =>
    let bookingsArray :=
      match data with
      | .array bookings => bookings
      | .notArray => []
    let sortedBookings := if bookingsArray.length > 0 then sortBookings bookingsArray else []
    ({ s with bookings := sortedBookings, loading := false }, [])
  | .fail error =>
    ({ s with loading := false }, [showError (strOr error "Failed to fetch bookings")])
  | .thrown =>
    ({ s with loading := false },
      [showError "An unexpected error occurred while fetching bookings."])

/-! ### Actions on a booking -/

/-- The expression `booking._id || booking.id`. -/
def Booking.key (b : Booking) : JsVal := jsOr b._id b.id

/-- The property key that a computed key `[bookingId]` denotes: the string form of the
value (for a number, its decimal digits; numbers of 22 digits and more, which JavaScript
writes with an exponent, are not modelled). -/
def propertyKey : JsVal → String
  | .undefined => "undefined"
  | .null => "null"
  | .str s => s
  | .num n => toString n

/-- The read `actionLoading[bookingId]`; `none` is `undefined`. -/
def actionTag (s : BookingsPage) (bookingId : JsVal) : Option String :=
  s.actionLoading.lookup (propertyKey bookingId)

/-- The update `setActionLoading(prev => ({ ...prev, [bookingId]: tag }))`. -/
def beginAction (bookingId : JsVal) (tag : String) (s : BookingsPage) : BookingsPage :=
  { s with
    actionLoading :=
      (propertyKey bookingId, tag) ::
        s.actionLoading.filter (fun entry => entry.1 ≠ propertyKey bookingId) }

/-- The update of the `finally` blocks: a copy of `prev` with the key `bookingId`
deleted. -/
def endAction (bookingId : JsVal) (s : BookingsPage) : BookingsPage :=
  { s with
    actionLoading := s.actionLoading.filter (fun entry => entry.1 ≠ propertyKey bookingId) }

/-- The requests the bookings page sends. -/
inductive BookingsRequest where
  | getBookings
  | cancelBooking (bookingId : JsVal)
  | updateBookingStatus (bookingId : JsVal) (status : String)
  | deleteBooking (bookingId : JsVal)
  deriving DecidableEq, Repr

/-- The effects of one run of a handler of the bookings page. -/
structure BookingsEffects where
  requests : List BookingsRequest := []
  toasts : List ToastCall := []
  deriving DecidableEq, Repr

/-- The effects of one run of `fetchBookings`: its call of `getBookings` and the
notifications it shows. -/
def fetchBookingsEffects (outcome : ApiOutcome BookingsPayload) (s : BookingsPage) :
    BookingsEffects :=
  { requests := [.getBookings], toasts := (fetchBookings outcome s).2 }

/-- The update `prev.map(booking => (booking._id || booking.id) === bookingId
? { ...booking, status } : booking)`. -/
def patchStatus (bookingId : JsVal) (status : String) (prev : List Booking) : List Booking :=
  prev.map (fun booking =>
    if jsOr booking._id booking.id = bookingId then { booking with status := status }
    else booking)

/-- `handleCancelBooking` from the point where `cancelBooking` has settled to its end:
the `try` and `catch` blocks, then the `finally` block. -/
def handleCancelBookingSettled (outcome : ApiOutcome Unit) (bookingId : JsVal)
    (s : BookingsPage) : BookingsPage × List ToastCall :=
  match outcome with
  | .ok _ _ =>
    (endAction bookingId { s with bookings := patchStatus bookingId "cancelled" s.bookings },
      [showSuccess "🚫 Booking cancelled successfully"])
  | .fail error => (endAction bookingId s, [showError (strOr error "Failed to cancel booking")])
  | .thrown =>
    (endAction bookingId s,
      [showError "An unexpected error occurred while cancelling the booking."])

/-- `handleCancelBooking`, with the answer to `window.confirm` and the outcome of
`cancelBooking`. -/
def handleCancelBooking (confirmed : Bool) (outcome : ApiOutcome Unit) (bookingId : JsVal)
    (s : BookingsPage) : BookingsPage × BookingsEffects :=
  if !confirmed then (s, {})
  else
    let settled :=
      handleCancelBookingSettled outcome bookingId (beginAction bookingId "cancelling" s)
    (settled.1, { requests := [.cancelBooking bookingId], toasts := settled.2 })

/-- The read `statusMessages[newStatus] || 'Booking status updated successfully'`, on the
own keys of `statusMessages`. -/
def statusMessage (newStatus : String) : String :=
  if newStatus = "in_progress" then "🚀 Journey started successfully!"
  else if newStatus = "completed" then "✅ Journey completed successfully!"
  else if newStatus = "confirmed" then "✅ Booking confirmed!"
  else "Booking status updated successfully"

/-- `handleUpdateStatus` from the point where `updateBookingStatus` has settled to its
end. -/
def handleUpdateStatusSettled (outcome : ApiOutcome Unit) (bookingId : JsVal)
    (newStatus : String) (s : BookingsPage) : BookingsPage × List ToastCall :=
  match outcome with
  | .ok _ _ =>
    (endAction bookingId { s with bookings := patchStatus bookingId newStatus s.bookings },
      [showSuccess (statusMessage newStatus)])
  | .fail error =>
    (endAction bookingId s, [showError (strOr error "Failed to update booking status")])
  | .thrown =>
    (endAction bookingId s,
      [showError "An unexpected error occurred while updating the booking status."])

/-- `handleUpdateStatus`, with the outcome of `updateBookingStatus`. -/
def handleUpdateStatus (outcome : ApiOutcome Unit) (bookingId : JsVal) (newStatus : String)
    (s : BookingsPage) : BookingsPage × BookingsEffects :=
  let settled :=
    handleUpdateStatusSettled outcome bookingId newStatus (beginAction bookingId "updating" s)
  (settled.1,
    { requests := [.updateBookingStatus bookingId newStatus], toasts := settled.2 })

/-- `handleDeleteBooking` from the point where `deleteBooking` has settled to its end. -/
def handleDeleteBookingSettled (outcome : ApiOutcome Unit) (bookingId : JsVal)
    (s : BookingsPage) : BookingsPage × List ToastCall :=
  match outcome with
  | .ok _ _ =>
    (endAction bookingId
      { s with
        bookings :=
          s.bookings.filter (fun booking => jsOr booking._id booking.id ≠ bookingId) },
      [showSuccess "🗑️ Booking deleted successfully"])
  | .fail error => (endAction bookingId s, [showError (strOr error "Failed to delete booking")])
  | .thrown =>
    (endAction bookingId s,
      [showError "An unexpected error occurred while deleting the booking."])

/-- `handleDeleteBooking`, with the answer to `window.confirm` and the outcome of
`deleteBooking`. -/
def handleDeleteBooking (confirmed : Bool) (outcome : ApiOutcome Unit) (bookingId : JsVal)
    (s : BookingsPage) : BookingsPage × BookingsEffects :=
  if !confirmed then (s, {})
  else
    let settled :=
      handleDeleteBookingSettled outcome bookingId (beginAction bookingId "deleting" s)
    (settled.1, { requests := [.deleteBooking bookingId], toasts := settled.2 })

/-- The constant `filteredBookings`. -/
def filteredBookings (s : BookingsPage) : List Booking :=
  s.bookings.filter (fun booking => if s.filter = "all" then true else booking.status = s.filter)

/-- The click on a button of the filter bar: `setFilter(option.value)`. -/
def setFilter (value : String) (s : BookingsPage) : BookingsPage × BookingsEffects :=
  ({ s with filter := value }, {})

/-- The values of `filterOptions`. -/
def filterValues : List String :=
  ["all", "pending", "confirmed", "in_progress", "completed", "cancelled"]

/-- What the buttons of a booking card do. -/
inductive BookingAction where
  | cancel
  | update (newStatus : String)
  | delete
  deriving DecidableEq, Repr

/-- The value that `actionLoading` holds while the action runs. -/
def BookingAction.tag : BookingAction → String
  | .cancel => "cancelling"
  | .update _ => "updating"
  | .delete => "deleting"

/-- The status that the action gives the booking when it succeeds; none for a deletion. -/
def BookingAction.newStatus : BookingAction → Option String
  | .cancel => some "cancelled"
  | .update newStatus => some newStatus
  | .delete => none

/-- The buttons rendered for a booking at the clock reading `now`, in their order: Cancel
Booking, Start Journey, Complete Journey, Delete Booking. -/
def offeredActions (now : Int) (booking : Booking) : List BookingAction :=
  (if canCancelBooking now booking then [.cancel] else []) ++
  (if booking.status = "confirmed" then [.update "in_progress"] else []) ++
  (if booking.status = "in_progress" then [.update "completed"] else []) ++
  (if canDeleteBooking booking then [.delete] else [])

/-- The property `loading` of the button of an action: `actionLoading[id] === tag`. A
button that is loading is disabled. -/
def buttonLoading (s : BookingsPage) (booking : Booking) (action : BookingAction) : Bool :=
  actionTag s (jsOr booking._id booking.id) = some action.tag

/-! ### The bookings page as a state machine -/

/-- An action whose request has been issued and has not settled. -/
structure PendingAction where
  bookingId : JsVal
  action : BookingAction
  deriving DecidableEq, Repr

/-- The bookings page together with the requests in flight. -/
structure BookingsMachine where
  page : BookingsPage
  pending : List PendingAction
  deriving DecidableEq, Repr

/-- What happens on the bookings page: the user presses the button of an action on the card
at a position of the displayed list (at a clock reading, with the answer given to
`window.confirm` if it is asked), or the request at a position of the requests in flight
settles with an outcome. -/
inductive BookingsEvent where
  | press (now : Int) (index : Nat) (action : BookingAction) (confirmed : Bool)
  | settle (index : Nat) (outcome : ApiOutcome Unit)

/-- The handler of an action from the point where its request has settled. -/
def settleAction (outcome : ApiOutcome Unit) (p : PendingAction) (s : BookingsPage) :
    BookingsPage :=
  match p.action with
  | .cancel => (handleCancelBookingSettled outcome p.bookingId s).1
  | .update newStatus => (handleUpdateStatusSettled outcome p.bookingId newStatus s).1
  | .delete => (handleDeleteBookingSettled outcome p.bookingId s).1

/-- One event of the bookings page. A press has an effect when the button is rendered for
the booking, is not disabled by its `loading` property and, for a cancellation or a
deletion, the confirmation is given: the handler runs up to its request. -/
def bookingsStep (m : BookingsMachine) (e : BookingsEvent) : BookingsMachine :=
  match e with
  | .press now index action confirmed =>
    match (filteredBookings m.page)[index]? with
    | none => m
    | some booking =>
      if action ∈ offeredActions now booking ∧ buttonLoading m.page booking action = false ∧
          (confirmed = true ∨ action.tag = "updating") then
        { page := beginAction (jsOr booking._id booking.id) action.tag m.page
          pending := m.pending ++ [⟨jsOr booking._id booking.id, action⟩] }
      else m
  | .settle index outcome =>
    match m.pending[index]? with
    | none => m
    | some p => { page := settleAction outcome p m.page, pending := m.pending.eraseIdx index }

/-- A sequence of events of the bookings page. -/
def bookingsRun (m : BookingsMachine) (events : List BookingsEvent) : BookingsMachine :=
  events.foldl bookingsStep m

/-- The booking `a` was created no earlier than the booking `b`, both creation times being
valid. -/
def CreatedNoEarlier (a b : Booking) : Prop :=
  ∃ ta tb, a.createdAt = some ta ∧ b.createdAt = some tb ∧ tb ≤ ta

/-! ## Search-and-book page (`src/pages/SearchAndBook.jsx`) -/

/-- The state `searchForm`. `startDateTime` is the `Date` the date picker handed over,
or `null` (`none`) when the field was cleared. -/
structure SearchForm where
  capacityRequired : String
  fromPincode : String
  toPincode : String
  startDateTime : Option Int
  deriving DecidableEq, Repr

/-- The object `newErrors` of `validateSearchForm`: a field is `none` when the object has no
such key. -/
structure SearchErrors where
  capacityRequired : Option String := none
  fromPincode : Option String := none
  toPincode : Option String := none
  startDateTime : Option String := none
  deriving DecidableEq, Repr

/-- The test `Object.keys(newErrors).length === 0`. -/
def SearchErrors.noKeys (e : SearchErrors) : Bool :=
  e.capacityRequired.isNone && e.fromPincode.isNone && e.toPincode.isNone &&
    e.startDateTime.isNone

/-- The capacity check of `validateSearchForm`. -/
def searchCapacityError (capacityRequired : String) : Option String :=
  if capacityRequired = "" then some "Capacity required is mandatory"
  else
    match jsParseInt capacityRequired with
    | none => some "Capacity must be a positive number"
    | some capacity =>
      if capacity ≤ 0 then some "Capacity must be a positive number" else none

/-- The pincode check of `validateSearchForm`, with the two messages of the field. -/
def pincodeError (pincode required sixDigits : String) : Option String :=
  if pincode = "" then some required
  else if !testSixDigits pincode then some sixDigits
  else none

/-- The date check of `validateSearchForm`, with the reading `now` of `new Date()`. -/
def startDateTimeError (now : Int) (startDateTime : Option Int) : Option String :=
  match startDateTime with
  | none => some "Start date and time is required"
  | some t =>
    let fiveMinutesFromNow := now + 5 * 60 * 1000
    if t ≤ fiveMinutesFromNow then
      some "Start date and time must be at least 5 minutes from now"
    else none

/-- `validateSearchForm`: the errors it stores with `setSearchErrors` and the value it
returns. -/
def validateSearchForm (now : Int) (searchForm : SearchForm) : SearchErrors × Bool :=
  let newErrors : SearchErrors :=
    { capacityRequired := searchCapacityError searchForm.capacityRequired
      fromPincode := pincodeError searchForm.fromPincode
        "From pincode is required" "From pincode must be exactly 6 digits"
      toPincode := pincodeError searchForm.toPincode
        "To pincode is required" "To pincode must be exactly 6 digits"
      startDateTime := startDateTimeError now searchForm.startDateTime }
  (newErrors, newErrors.noKeys)

/-- A vehicle record of the search results. -/
structure Vehicle where
  _id : JsVal
  id : JsVal
  name : String
  vehicleType : String
  capacityKg : Int
  tyres : Int
  deriving DecidableEq, Repr

/-- The expression `vehicle._id || vehicle.id`. -/
def Vehicle.key (v : Vehicle) : JsVal := jsOr v._id v.id

/-- The argument of `searchAvailableVehicles`. `startTime` stands for the ISO string of the
date with that time value. -/
structure SearchParams where
  capacityRequired : Option Int
  fromPincode : String
  toPincode : String
  startTime : Int
  deriving DecidableEq, Repr

/-- The argument of `createBooking`. `startTime` and `endTime` stand for the ISO strings of
the dates with those time values. -/
structure BookingData where
  vehicleId : JsVal
  customerId : String
  fromPincode : String
  toPincode : String
  startTime : Int
  endTime : Int
  estimatedRideDurationHours : Int
  deriving DecidableEq, Repr

/-- The state of the page. -/
structure SearchPage where
  searchForm : SearchForm
  searchResults : List Vehicle
  searchErrors : SearchErrors
  searching : Bool
  booking : Bool
  deriving DecidableEq, Repr

/-- The effects of one run of a handler of the page. -/
structure SearchEffects where
  searchRequests : List SearchParams := []
  bookingRequests : List BookingData := []
  toasts : List ToastCall := []
  deriving DecidableEq, Repr

/-- The constant `customerId`: `process.env.REACT_APP_DEFAULT_CUSTOMER_ID ||
'demo-customer-001'`. -/
def customerId (env : Option String) : String := strOr env "demo-customer-001"

/-- `handleSearch`, with the outcome of `searchAvailableVehicles`; the data of a success is
the field `availableVehicles` (`none` when absent). -/
def handleSearch (now : Int) (outcome : ApiOutcome (Option (List Vehicle)))
    (s : SearchPage) : SearchPage × SearchEffects :=
  let v := validateSearchForm now s.searchForm
  if !v.2 then ({ s with searchErrors := v.1 }, {})
  else
    match s.searchForm.startDateTime with
    | none =>
      ({ s with searchErrors := v.1, searchResults := [], searching := false },
        { toasts := [showError "An unexpected error occurred while searching. Please try again."] })
    | some t =>
      let searchParams : SearchParams :=
        { capacityRequired := jsParseInt s.searchForm.capacityRequired
          fromPincode := s.searchForm.fromPincode
          toPincode := s.searchForm.toPincode
          startTime := t }
      match outcome with
      | .ok data _ =>
        let vehicles := data.getD []
        ({ s with searchErrors := v.1, searchResults := vehicles, searching := false },
          { searchRequests := [searchParams]
            toasts :=
              if vehicles.length = 0 then
                [showWarning
                  "No vehicles found matching your criteria. Please try different search parameters."]
              else
                [showSuccess
                  ("Found " ++ toString vehicles.length ++ " available vehicle(s) for your search.")] })
      | .fail error =>
        ({ s with searchErrors := v.1, searchResults := [], searching := false },
          { searchRequests := [searchParams]
            toasts := [showError (strOr error "Failed to search vehicles")] })
      | .thrown =>
        ({ s with searchErrors := v.1, searchResults := [], searching := false },
          { searchRequests := [searchParams]
            toasts :=
              [showError "An unexpected error occurred while searching. Please try again."] })

/-- The object `bookingData` of `handleBookVehicle`; `none` when `startDateTime` is `null`,
where `searchForm.startDateTime.getTime()` throws before the object is built. -/
def bookingDataOf (env : Option String) (searchForm : SearchForm) (vehicle : Vehicle) :
    Option BookingData :=
  match searchForm.startDateTime with
  | none => none
  | some t =>
    let estimatedDurationHours : Int := 2
    let endTime := t + estimatedDurationHours * 60 * 60 * 1000
    some
      { vehicleId := jsOr vehicle._id vehicle.id
        customerId := customerId env
        fromPincode := searchForm.fromPincode
        toPincode := searchForm.toPincode
        startTime := t
        endTime := endTime
        estimatedRideDurationHours := estimatedDurationHours }

/-- `handleBookVehicle`, with the outcome of `createBooking`. -/
def handleBookVehicle (env : Option String) (outcome : ApiOutcome Unit) (vehicle : Vehicle)
    (s : SearchPage) : SearchPage × SearchEffects :=
  match bookingDataOf env s.searchForm vehicle with
  | none =>
    ({ s with booking := false },
      { toasts := [showError "An unexpected error occurred while booking. Please try again."] })
  | some bookingData =>
    match outcome with
    | .ok _ _ =>
      ({ s with
          searchResults :=
            s.searchResults.filter (fun v => jsOr v._id v.id ≠ jsOr vehicle._id vehicle.id)
          booking := false },
        { bookingRequests := [bookingData]
          toasts :=
            [showSuccess
              ("🎉 Booking confirmed! Vehicle \"" ++ vehicle.name ++
                "\" has been booked successfully.")] })
    | .fail error =>
      ({ s with booking := false },
        { bookingRequests := [bookingData]
          toasts :=
            [showError (strOr error "Failed to book vehicle. It may no longer be available.")] })
    | .thrown =>
      ({ s with booking := false },
        { bookingRequests := [bookingData]
          toasts := [showError "An unexpected error occurred while booking. Please try again."] })

/-! ### The page as a state machine -/

/-- The inputs served by `handleSearchInputChange`, by their attribute `name`. -/
inductive SearchField where
  | capacityRequired
  | fromPincode
  | toPincode
  deriving DecidableEq, Repr

/-- The update `[name]: ''` of `searchErrors`, made when `searchErrors[name]` is truthy. -/
def clearError (e : Option String) : Option String :=
  match e with
  | some m => if m ≠ "" then some "" else e
  | none => none

/-- `handleSearchInputChange`, for the event of the input `name` with the value `value`. -/
def handleSearchInputChange (name : SearchField) (value : String) (s : SearchPage) :
    SearchPage :=
  match name with
  | .capacityRequired =>
    { s with
      searchForm := { s.searchForm with capacityRequired := value }
      searchErrors :=
        { s.searchErrors with capacityRequired := clearError s.searchErrors.capacityRequired } }
  | .fromPincode =>
    { s with
      searchForm := { s.searchForm with fromPincode := value }
      searchErrors :=
        { s.searchErrors with fromPincode := clearError s.searchErrors.fromPincode } }
  | .toPincode =>
    { s with
      searchForm := { s.searchForm with toPincode := value }
      searchErrors :=
        { s.searchErrors with toPincode := clearError s.searchErrors.toPincode } }

/-- `handleDateTimeChange`, called by the date picker with a `Date` or `null`. -/
def handleDateTimeChange (date : Option Int) (s : SearchPage) : SearchPage :=
  { s with
    searchForm := { s.searchForm with startDateTime := date }
    searchErrors :=
      { s.searchErrors with startDateTime := clearError s.searchErrors.startDateTime } }

/-- The state of the page when it is mounted at the clock reading `now`. -/
def initialSearchPage (now : Int) : SearchPage :=
  { searchForm :=
      { capacityRequired := "", fromPincode := "", toPincode := ""
        startDateTime := some (now + 10 * 60 * 1000) }
    searchResults := []
    searchErrors := {}
    searching := false
    booking := false }

/-- What the user can do on the page: edit a field, pick or clear the date, submit the
search form (at a clock reading, with the outcome of the query), press `Book Now` on the
card at a position of the displayed results (with the outcome of the booking). -/
inductive SearchEvent where
  | input (name : SearchField) (value : String)
  | date (date : Option Int)
  | search (now : Int) (outcome : ApiOutcome (Option (List Vehicle)))
  | book (index : Nat) (outcome : ApiOutcome Unit)

/-- One event of the page: the state after it and the booking requests it submitted. -/
def searchStep (env : Option String) (s : SearchPage) (e : SearchEvent) :
    SearchPage × List BookingData :=
  match e with
  | .input name value => (handleSearchInputChange name value s, [])
  | .date date => (handleDateTimeChange date s, [])
  | .search now outcome => ((handleSearch now outcome s).1, [])
  | .book index outcome =>
    match s.searchResults[index]? with
    | none => (s, [])
    | some vehicle =>
      ((handleBookVehicle env outcome vehicle s).1,
        (handleBookVehicle env outcome vehicle s).2.bookingRequests)

/-- A sequence of events from a state: the final state and all booking requests submitted,
in order. -/
def searchRun (env : Option String) (s : SearchPage) (events : List SearchEvent) :
    SearchPage × List BookingData :=
  events.foldl
    (fun acc e => ((searchStep env acc.1 e).1, acc.2 ++ (searchStep env acc.1 e).2)) (s, [])

/-- An outcome that is not a success: the failure result a domain API function returns for
a network, transport or backend error, or an exception. -/
def ApiOutcome.failed {α : Type} : ApiOutcome α → Bool
  | .ok _ _ => false
  | .fail _ => true
  | .thrown => true

/-- The notifications of a run are one error notification. -/
def OneErrorToast (toasts : List ToastCall) : Prop :=
  ∃ message, toasts = [⟨.error, message, 6000⟩]

/-- The state of the search-and-book page while the availability query is in flight: the
errors of the validation are stored, `searching` is set and the result list is emptied. -/
def searchInFlight (now : Int) (s : SearchPage) : SearchPage :=
  { s with
    searchErrors := (validateSearchForm now s.searchForm).1
    searching := true
    searchResults := [] }

/-! ## Add-vehicle page (`src/pages/AddVehicle.jsx`) -/

/-- The state `formData`. -/
structure VehicleForm where
  name : String
  capacityKg : String
  tyres : String
  vehicleType : String
  registrationNumber : String
  deriving DecidableEq, Repr

/-- The object `newErrors` of `validateForm`: a field is `none` when the object has no such
key. -/
structure VehicleErrors where
  name : Option String := none
  capacityKg : Option String := none
  tyres : Option String := none
  registrationNumber : Option String := none
  deriving DecidableEq, Repr

/-- The test `Object.keys(newErrors).length === 0`. -/
def VehicleErrors.noKeys (e : VehicleErrors) : Bool :=
  e.name.isNone && e.capacityKg.isNone && e.tyres.isNone && e.registrationNumber.isNone

/-- The name check of `validateForm`. -/
def nameError (name : String) : Option String :=
  if jsTrim name = "" then some "Vehicle name is required"
  else if jsLength (jsTrim name) < 2 then some "Vehicle name must be at least 2 characters"
  else none

/-- The capacity check of `validateForm`. -/
def capacityKgError (capacityKg : String) : Option String :=
  if capacityKg = "" then some "Capacity is required"
  else
    match jsParseInt capacityKg with
    | none => some "Capacity must be a positive number"
    | some capacity =>
      if capacity ≤ 0 then some "Capacity must be a positive number"
      else if capacity > 100000 then some "Capacity cannot exceed 100,000 kg"
      else none

/-- The tyres check of `validateForm`. -/
def tyresError (tyres : String) : Option String :=
  if tyres = "" then some "Number of tyres is required"
  else
    match jsParseInt tyres with
    | none => some "Vehicle must have at least 2 tyres"
    | some n =>
      if n < 2 then some "Vehicle must have at least 2 tyres"
      else if n > 20 then some "Vehicle cannot have more than 20 tyres"
      else none

/-- The registration-number check of `validateForm`. -/
def registrationError (registrationNumber : String) : Option String :=
  if registrationNumber ≠ "" ∧ !testRegistration registrationNumber then
    some "Registration number can only contain letters, numbers, hyphens and spaces"
  else none

/-- `validateForm`: the errors it stores with `setErrors` and the value it returns. -/
def validateForm (formData : VehicleForm) : VehicleErrors × Bool :=
  let newErrors : VehicleErrors :=
    { name := nameError formData.name
      capacityKg := capacityKgError formData.capacityKg
      tyres := tyresError formData.tyres
      registrationNumber := registrationError formData.registrationNumber }
  (newErrors, newErrors.noKeys)

/-- The argument of `addVehicle`; `registrationNumber` is `none` when the object has no
such key. -/
structure VehicleData where
  name : String
  capacityKg : Option Int
  tyres : Option Int
  vehicleType : String
  registrationNumber : Option String
  deriving DecidableEq, Repr

/-- The object `vehicleData` of `handleSubmit`. -/
def vehicleDataOf (formData : VehicleForm) : VehicleData :=
  { name := jsTrim formData.name
    capacityKg := jsParseInt formData.capacityKg
    tyres := jsParseInt formData.tyres
    vehicleType := formData.vehicleType
    registrationNumber :=
      if formData.registrationNumber ≠ "" then
        some (jsToUpperCase (jsTrim formData.registrationNumber))
      else none }

/-- The state of the page. -/
structure VehiclePage where
  formData : VehicleForm
  errors : VehicleErrors
  loading : Bool
  deriving DecidableEq, Repr

/-- The effects of one run of `handleSubmit`. -/
structure VehicleEffects where
  requests : List VehicleData := []
  toasts : List ToastCall := []
  deriving DecidableEq, Repr

/-- The initial value of `formData`, also set after a successful submission. -/
def defaultVehicleForm : VehicleForm :=
  { name := "", capacityKg := "", tyres := "", vehicleType := "truck", registrationNumber := "" }

/-- `handleSubmit`, with the outcome of `addVehicle`. -/
def handleSubmit (outcome : ApiOutcome Unit) (s : VehiclePage) : VehiclePage × VehicleEffects :=
  let v := validateForm s.formData
  if !v.2 then ({ s with errors := v.1 }, {})
  else
    let vehicleData := vehicleDataOf s.formData
    match outcome with
    | .ok _ message =>
      ({ formData := defaultVehicleForm, errors := v.1, loading := false },
        { requests := [vehicleData]
          toasts := [showSuccess (strOr message "Vehicle added successfully!")] })
    | .fail error =>
      ({ s with errors := v.1, loading := false },
        { requests := [vehicleData]
          toasts := [showError (strOr error "Failed to add vehicle")] })
    | .thrown =>
      ({ s with errors := v.1, loading := false },
        { requests := [vehicleData]
          toasts := [showError "An unexpected error occurred. Please try again."] })

/-! ## Vocabulary of the specification -/

/-- A string of exactly six decimal digits. -/
def SixDigits (s : String) : Prop :=
  s.length = 6 ∧ ∀ c ∈ s.data, '0' ≤ c ∧ c ≤ '9'

instance (s : String) : Decidable (SixDigits s) := by
  unfold SixDigits
  infer_instance

/-- The number written by a list of decimal digits. -/
def digitsNat (l : List Char) : Nat :=
  l.foldl (fun acc c => acc * 10 + (c.toNat - 48)) 0

/-- The decimal notation of a number: an optional sign, one or more digits and, optionally,
a point followed by one or more digits. The value of such a string; `none` for every other
string. -/
def decimalValue (s : String) : Option ℚ :=
  let body := stripSign s.data
  let ip := body.takeWhile Char.isDigit
  let rest := body.dropWhile Char.isDigit
  let fp := rest.tail
  if ip ≠ [] ∧ (rest = [] ∨ (rest.head? = some '.' ∧ fp ≠ [] ∧ fp.all Char.isDigit = true)) then
    some ((if s.data.head? = some '-' then -1 else 1) *
      ((digitsNat ip : ℚ) + (digitsNat fp : ℚ) / 10 ^ fp.length))
  else none

/-- The characters the specification allows in a registration number: letters, digits,
hyphens and spaces. -/
def plainRegChar (c : Char) : Bool :=
  c.isAlpha || c.isDigit || c == '-' || c == ' '

/-- Letters, digits, hyphens and white-space characters. -/
def spacedRegChar (c : Char) : Bool :=
  c.isAlpha || c.isDigit || c == '-' || isJsWhiteSpace c

/-- Upper-case letters, digits, hyphens and white-space characters. -/
def upperRegChar (c : Char) : Bool :=
  c.isUpper || c.isDigit || c == '-' || isJsWhiteSpace c

/-- The list `t` is `s` without its leading and trailing white space. -/
def IsTrimOf (t s : List Char) : Prop :=
  ∃ pre post, s = pre ++ t ++ post ∧
    (∀ c ∈ pre, isJsWhiteSpace c = true) ∧ (∀ c ∈ post, isJsWhiteSpace c = true) ∧
    (∀ c, t.head? = some c → isJsWhiteSpace c = false) ∧
    (∀ c, t.getLast? = some c → isJsWhiteSpace c = false)

/-- The digits of the fraction of a numeral whose integer part has been read: what follows
a point. -/
def fractionDigits (l : List Char) : List Char :=
  if l.head? = some '.' then l.tail.takeWhile Char.isDigit else []

/-- What follows the fraction of a numeral whose integer part has been read. -/
def afterFraction (l : List Char) : List Char :=
  if l.head? = some '.' then l.tail.dropWhile Char.isDigit else l

/-- Whether an exponent follows: the letter `e` or `E`. -/
def hasExponent (l : List Char) : Bool :=
  l.head? = some 'e' || l.head? = some 'E'

/-- The value of a string as the `value` of an `<input type="number">`, which is either
empty or a valid floating-point number: an optional `-`, then digits, or a point followed by
digits, or both, then optionally an exponent (`e` or `E`, an optional sign, digits). The
number such a string denotes; `none` for every other string, which the field replaces by
the empty string. -/
def numberFieldValue (s : String) : Option ℚ :=
  let body := if s.data.head? = some '-' then s.data.tail else s.data
  let ip := body.takeWhile Char.isDigit
  let r1 := body.dropWhile Char.isDigit
  let fp := fractionDigits r1
  let r2 := afterFraction r1
  let ep := (stripSign r2.tail).takeWhile Char.isDigit
  let rest := if hasExponent r2 then (stripSign r2.tail).dropWhile Char.isDigit else r2
  let exponent : Int :=
    if hasExponent r2 then
      (if r2.tail.head? = some '-' then -(digitsNat ep : Int) else (digitsNat ep : Int))
    else 0
  if (ip ≠ [] ∨ r1.head? = some '.') ∧ (r1.head? = some '.' → fp ≠ []) ∧
      (hasExponent r2 = true → ep ≠ []) ∧ rest = [] then
    some ((if s.data.head? = some '-' then -1 else 1) *
      ((digitsNat ip : ℚ) + (digitsNat fp : ℚ) / 10 ^ fp.length) * (10 : ℚ) ^ exponent)
  else none

/-- The strings the state of a capacity field can hold: the field is an
`<input type="number">` and the state is written only from its `value`. -/
def NumberFieldHolds (s : String) : Prop :=
  s = "" ∨ (numberFieldValue s).isSome = true

instance (s : String) : Decidable (NumberFieldHolds s) := by
  unfold NumberFieldHolds
  infer_instance

/-! ## Theorems -/

/-! ### Lemmas on the string primitives -/

theorem isDigit_iff (c : Char) : c.isDigit = true ↔ '0' ≤ c ∧ c ≤ '9' := by
  simp only [Char.isDigit, Bool.and_eq_true, decide_eq_true_eq, ge_iff_le]
  rfl

theorem matchDigits_eq_some (n : Nat) (l r : List Char) :
    matchDigits n l = some r ↔
      ∃ p, l = p ++ r ∧ p.length = n ∧ ∀ c ∈ p, c.isDigit = true := by
  induction n generalizing l with
  | zero =>
    simp only [matchDigits, Option.some.injEq, List.length_eq_zero]
    constructor
    · intro h; exact ⟨[], by simp [h], rfl, by simp⟩
    · rintro ⟨p, hp, hp0, -⟩; subst hp0; simpa using hp
  | succ n ih =>
    cases l with
    | nil =>
      simp only [matchDigits]
      constructor
      · intro h; cases h
      · rintro ⟨p, hp, hlen, -⟩
        cases p with
        | nil => simp at hlen
        | cons a p => simp at hp
    | cons a l =>
      simp only [matchDigits]
      split
      · rename_i ha
        rw [ih]
        constructor
        · rintro ⟨p, hp, hlen, hall⟩
          refine ⟨a :: p, by simp [hp], by simp [hlen], ?_⟩
          intro c hc
          rcases List.mem_cons.mp hc with rfl | hc
          · exact ha
          · exact hall c hc
        · rintro ⟨p, hp, hlen, hall⟩
          cases p with
          | nil => simp at hlen
          | cons b p =>
            simp only [List.cons_append, List.cons.injEq] at hp
            refine ⟨p, hp.2, by simpa using hlen, fun c hc => hall c (List.mem_cons_of_mem _ hc)⟩
      · rename_i ha
        constructor
        · intro h; cases h
        · rintro ⟨p, hp, hlen, hall⟩
          cases p with
          | nil => simp at hlen
          | cons b p =>
            simp only [List.cons_append, List.cons.injEq] at hp
            exact absurd (hp.1 ▸ hall b (List.mem_cons_self _ _)) ha

theorem testSixDigits_iff (s : String) : testSixDigits s = true ↔ SixDigits s := by
  unfold testSixDigits SixDigits
  have key : matchDigits 6 s.data = some [] ↔
      s.data.length = 6 ∧ ∀ c ∈ s.data, c.isDigit = true := by
    rw [matchDigits_eq_some]
    constructor
    · rintro ⟨p, hp, hlen, hall⟩
      simp only [List.append_nil] at hp
      subst hp
      exact ⟨hlen, hall⟩
    · rintro ⟨hlen, hall⟩
      exact ⟨s.data, by simp, hlen, hall⟩
  have hlen : s.length = s.data.length := rfl
  simp only [hlen, ← isDigit_iff]
  rw [← key]
  split
  · rename_i h; simp [h]
  · rename_i h
    constructor
    · intro h2; cases h2
    · intro h2; exact absurd h2 (h)

theorem isDigit_iff_toNat (c : Char) : c.isDigit = true ↔ 48 ≤ c.toNat ∧ c.toNat ≤ 57 := by
  simp only [Char.isDigit, Bool.and_eq_true, decide_eq_true_eq, ge_iff_le]
  exact Iff.rfl

theorem isDigit_not_ws (c : Char) (h : c.isDigit = true) : isJsWhiteSpace c = false := by
  rw [isDigit_iff_toNat] at h
  simp only [isJsWhiteSpace, Bool.or_eq_false_iff, beq_eq_false_iff_ne, Bool.and_eq_false_imp,
    decide_eq_true_eq, decide_eq_false_iff_not]
  omega

theorem radixDigit_ten (c : Char) : (radixDigit 10 c).isSome = c.isDigit := by
  have h := isDigit_iff_toNat c
  by_cases hd : c.isDigit = true
  · rw [hd]
    have h' := h.mp hd
    simp [radixDigit, digitVal, h', Option.filter]
    omega
  · have hd' : c.isDigit = false := by simpa using hd
    rw [hd']
    have h' : ¬ (48 ≤ c.toNat ∧ c.toNat ≤ 57) := fun hh => hd (h.mpr hh)
    simp only [radixDigit, digitVal, if_neg h']
    split_ifs with h1 h2
    · simp [Option.filter]; omega
    · simp [Option.filter]; omega
    · simp [Option.filter]

theorem radixDigit_ten_val (c : Char) (h : c.isDigit = true) :
    (radixDigit 10 c).getD 0 = c.toNat - 48 := by
  have h' := (isDigit_iff_toNat c).mp h
  have : c.toNat - 48 < 10 := by omega
  simp [radixDigit, digitVal, h', Option.filter, this]

theorem foldl_digits (l : List Char) (h : ∀ c ∈ l, c.isDigit = true) (a : Nat) :
    l.foldl (fun acc c => acc * 10 + (radixDigit 10 c).getD 0) a =
      l.foldl (fun acc c => acc * 10 + (c.toNat - 48)) a := by
  induction l generalizing a with
  | nil => rfl
  | cons x l ih =>
    simp only [List.foldl_cons]
    rw [radixDigit_ten_val x (h x (List.mem_cons_self _ _))]
    exact ih (fun c hc => h c (List.mem_cons_of_mem _ hc)) _

theorem hasHexPrefix_digits (l : List Char)
    (h : l.dropWhile Char.isDigit = [] ∨ (l.dropWhile Char.isDigit).head? = some '.') :
    hasHexPrefix l = false := by
  match l, h with
  | [], _ => rfl
  | [_], _ => rfl
  | a :: b :: r, h =>
    simp only [hasHexPrefix]
    by_cases ha : a.isDigit = true
    · by_cases hb : b.isDigit = true
      · have hb' := (isDigit_iff_toNat b).mp hb
        have hx : (b == 'x') = false := by
          rw [beq_eq_false_iff_ne]; rintro rfl; revert hb'; decide
        have hX : (b == 'X') = false := by
          rw [beq_eq_false_iff_ne]; rintro rfl; revert hb'; decide
        simp [hx, hX]
      · have hb' : b.isDigit = false := by simpa using hb
        simp only [List.dropWhile_cons, ha, hb', if_true] at h
        simp at h
        subst h
        have hx : ('.' == 'x') = false := by decide
        have hX : ('.' == 'X') = false := by decide
        simp [hx, hX]
    · have ha' : a.isDigit = false := by simpa using ha
      have : (a == '0') = false := by
        rw [beq_eq_false_iff_ne]; rintro rfl; revert ha; decide
      simp [this]

/-- Every decimal numeral of a number that is at most zero is read by `parseInt` as an
integer that is at most zero. -/
theorem parseInt_of_decimal_nonpos (s : String) (q : ℚ) (hq : decimalValue s = some q)
    (hle : q ≤ 0) : ∃ c, jsParseInt s = some c ∧ c ≤ 0 := by
  unfold decimalValue at hq
  simp only at hq
  by_cases hv : (stripSign s.data).takeWhile Char.isDigit ≠ [] ∧
      ((stripSign s.data).dropWhile Char.isDigit = [] ∨
        (((stripSign s.data).dropWhile Char.isDigit).head? = some '.' ∧
          ((stripSign s.data).dropWhile Char.isDigit).tail ≠ [] ∧
          ((stripSign s.data).dropWhile Char.isDigit).tail.all Char.isDigit = true))
  swap
  · rw [if_neg hv] at hq; cases hq
  rw [if_pos hv] at hq
  obtain ⟨hip, hrest⟩ := hv
  -- the first character of the body is a digit
  have hbody : ∃ d r, stripSign s.data = d :: r ∧ d.isDigit = true := by
    cases hb : stripSign s.data with
    | nil => rw [hb] at hip; simp at hip
    | cons d r =>
      refine ⟨d, r, rfl, ?_⟩
      by_contra hd
      rw [hb] at hip
      simp [List.takeWhile_cons, hd] at hip
  obtain ⟨d, r, hb, hd⟩ := hbody
  -- no leading white space
  have hws : s.data.dropWhile isJsWhiteSpace = s.data := by
    cases hl : s.data with
    | nil => rfl
    | cons a l =>
      have ha : isJsWhiteSpace a = false := by
        rw [hl] at hb
        simp only [stripSign] at hb
        split_ifs at hb with hsgn
        · rcases hsgn with rfl | rfl <;> decide
        · simp only [List.cons.injEq] at hb
          rw [hb.1]; exact isDigit_not_ws d hd
      simp [List.dropWhile_cons, ha]
  have hhex : hasHexPrefix (stripSign s.data) = false :=
    hasHexPrefix_digits _ (by
      rcases hrest with h | h
      · exact Or.inl h
      · exact Or.inr h.1)
  have hfun : (fun c => (radixDigit 10 c).isSome) = Char.isDigit := funext radixDigit_ten
  have hZ : ((stripSign s.data).takeWhile Char.isDigit).isEmpty = false := by
    rw [hb]; simp [List.takeWhile_cons, hd]
  have hall : ∀ c ∈ (stripSign s.data).takeWhile Char.isDigit, c.isDigit = true :=
    fun c hc => List.mem_takeWhile_imp hc
  unfold jsParseInt
  simp only [hws, hhex, if_false, hfun, hZ, Bool.false_eq_true]
  refine ⟨_, rfl, ?_⟩
  rw [foldl_digits _ hall]
  by_cases hneg : s.data.head? = some '-'
  · simp only [hneg, if_true]
    have : (0 : Int) ≤ ((List.foldl (fun acc c => acc * 10 + (c.toNat - 48)) 0
      ((stripSign s.data).takeWhile Char.isDigit) : Nat) : Int) := Int.natCast_nonneg _
    omega
  · simp only [hneg, if_false, one_mul] at hq ⊢
    have hq' := Option.some.inj hq
    have hfrac : (0 : ℚ) ≤ (digitsNat ((stripSign s.data).dropWhile Char.isDigit).tail : ℚ) /
        10 ^ ((stripSign s.data).dropWhile Char.isDigit).tail.length := by positivity
    have hip0 : (digitsNat ((stripSign s.data).takeWhile Char.isDigit) : ℚ) ≤ 0 := by
      rw [← hq'] at hle; linarith
    have : digitsNat ((stripSign s.data).takeWhile Char.isDigit) = 0 := by
      have := Nat.cast_nonneg (α := ℚ) (digitsNat ((stripSign s.data).takeWhile Char.isDigit))
      exact_mod_cast le_antisymm hip0 this
    unfold digitsNat at this
    rw [this]
    simp

/-! ### Lemmas on the search form -/

theorem pincodeError_eq_none (s a b : String) : pincodeError s a b = none ↔ SixDigits s := by
  unfold pincodeError
  by_cases h0 : s = ""
  · subst h0
    simp only [if_true]
    constructor
    · intro h; cases h
    · intro h; exact absurd h (by decide)
  · rw [if_neg h0, ← testSixDigits_iff]
    cases testSixDigits s <;> simp

theorem noKeys_search (e : SearchErrors) :
    e.noKeys = true ↔ e.capacityRequired = none ∧ e.fromPincode = none ∧ e.toPincode = none ∧
      e.startDateTime = none := by
  simp [SearchErrors.noKeys, Option.isNone_iff_eq_none, and_assoc]

theorem searchCapacityError_eq_none (s : String) :
    searchCapacityError s = none ↔ ∃ c, jsParseInt s = some c ∧ 0 < c := by
  unfold searchCapacityError
  by_cases h0 : s = ""
  · subst h0
    simp only [if_true]
    constructor
    · intro h; cases h
    · rintro ⟨c, hc, -⟩
      have h : jsParseInt "" = none := by decide
      rw [h] at hc
      cases hc
  · rw [if_neg h0]
    cases h : jsParseInt s with
    | none => simp
    | some c =>
      by_cases hc : c ≤ 0
      · simp [hc]
      · simp [hc, not_le.mp hc]



/-- C1: at every clock reading `now`, `canCancelBooking` holds exactly when the status is
`pending` or `confirmed` and the start time is a valid date strictly later than
`now + 3600000` ms; a start time of exactly `now + 3600000` is never cancellable. -/
theorem canCancelBooking_iff (now : Int) (b : Booking) :
    (canCancelBooking now b = true ↔
      (b.status = "pending" ∨ b.status = "confirmed") ∧
        ∃ t, b.startTime = some t ∧ now + 3600000 < t) ∧
    canCancelBooking now { b with startTime := some (now + 3600000) } = false := by
  refine ⟨?_, ?_⟩
  · cases h : b.startTime <;> simp [canCancelBooking, dateGt, h]
  · simp [canCancelBooking, dateGt]

/-- C2: `canDeleteBooking` holds exactly when the status is `completed` or `cancelled`; it
takes no clock reading, and replacing every other field of the booking leaves it unchanged. -/
theorem canDeleteBooking_iff (b : Booking) :
    (canDeleteBooking b = true ↔ (b.status = "completed" ∨ b.status = "cancelled")) ∧
    ∀ (i j : JsVal) (s c : Option Int),
      canDeleteBooking { _id := i, id := j, status := b.status, startTime := s, createdAt := c }
        = canDeleteBooking b := by
  refine ⟨?_, ?_⟩
  · simp [canDeleteBooking]
  · intros; rfl

/-- C3: with the other fields of the search form valid, `validateSearchForm` at clock reading
`now` returns false and sets the `startDateTime` error for every start time at or before
`now + 300000` ms, and returns true for every start time strictly after it; exactly
`now + 5 min` is rejected and `now + 5 min + 1 s` is accepted. -/
theorem validateSearchForm_start_boundary (now t : Int) (f : SearchForm)
    (hcap : ∃ c, jsParseInt f.capacityRequired = some c ∧ 0 < c)
    (hfrom : SixDigits f.fromPincode) (hto : SixDigits f.toPincode) :
    (t ≤ now + 300000 →
      (validateSearchForm now { f with startDateTime := some t }).2 = false ∧
      (validateSearchForm now { f with startDateTime := some t }).1.startDateTime =
        some "Start date and time must be at least 5 minutes from now") ∧
    (now + 300000 < t →
      (validateSearchForm now { f with startDateTime := some t }).2 = true) ∧
    (validateSearchForm now { f with startDateTime := some (now + 300000) }).2 = false ∧
    (validateSearchForm now { f with startDateTime := some (now + 300000 + 1000) }).2 = true := by
  have hc := (searchCapacityError_eq_none f.capacityRequired).mpr hcap
  have hf := fun a b => (pincodeError_eq_none f.fromPincode a b).mpr hfrom
  have ht := fun a b => (pincodeError_eq_none f.toPincode a b).mpr hto
  have rej : ∀ u : Int, u ≤ now + 300000 →
      (validateSearchForm now { f with startDateTime := some u }).2 = false ∧
      (validateSearchForm now { f with startDateTime := some u }).1.startDateTime =
        some "Start date and time must be at least 5 minutes from now" := by
    intro u hu
    simp [validateSearchForm, SearchErrors.noKeys, startDateTimeError, hu]
  have acc : ∀ u : Int, now + 300000 < u →
      (validateSearchForm now { f with startDateTime := some u }).2 = true := by
    intro u hu
    simp [validateSearchForm, SearchErrors.noKeys, startDateTimeError, hu, hc, hf, ht]
  exact ⟨rej t, acc t, (rej _ le_rfl).1, acc _ (by omega)⟩

theorem validateSearchForm_start_boundary_witness :
    ((0 : Int) ≤ 0 + 300000 →
      (validateSearchForm 0 { (⟨"500", "400001", "400002", none⟩ : SearchForm) with
        startDateTime := some 0 }).2 = false ∧
      (validateSearchForm 0 { (⟨"500", "400001", "400002", none⟩ : SearchForm) with
        startDateTime := some 0 }).1.startDateTime =
        some "Start date and time must be at least 5 minutes from now") ∧
    ((0 : Int) + 300000 < 0 →
      (validateSearchForm 0 { (⟨"500", "400001", "400002", none⟩ : SearchForm) with
        startDateTime := some 0 }).2 = true) ∧
    (validateSearchForm 0 { (⟨"500", "400001", "400002", none⟩ : SearchForm) with
        startDateTime := some (0 + 300000) }).2 = false ∧
    (validateSearchForm 0 { (⟨"500", "400001", "400002", none⟩ : SearchForm) with
        startDateTime := some (0 + 300000 + 1000) }).2 = true :=
  validateSearchForm_start_boundary 0 0 ⟨"500", "400001", "400002", none⟩
    ⟨500, by decide, by decide⟩ (by decide) (by decide)

/-- C4: `validateSearchForm` leaves `fromPincode` (and likewise `toPincode`) without an error
exactly when the string consists of six decimal digits; when either pincode is anything
else, it returns false and `handleSearch` returns with no request issued, no notification
and the result list untouched. -/
theorem pincode_six_digits_gate (now : Int) (outcome : ApiOutcome (Option (List Vehicle)))
    (s : SearchPage) :
    ((validateSearchForm now s.searchForm).1.fromPincode = none ↔
      SixDigits s.searchForm.fromPincode) ∧
    ((validateSearchForm now s.searchForm).1.toPincode = none ↔
      SixDigits s.searchForm.toPincode) ∧
    (¬ (SixDigits s.searchForm.fromPincode ∧ SixDigits s.searchForm.toPincode) →
      (validateSearchForm now s.searchForm).2 = false ∧
      (handleSearch now outcome s).2 = {} ∧
      (handleSearch now outcome s).1.searchResults = s.searchResults) := by
  refine ⟨pincodeError_eq_none _ _ _, pincodeError_eq_none _ _ _, ?_⟩
  intro h
  have hv : (validateSearchForm now s.searchForm).2 = false := by
    cases hb : (validateSearchForm now s.searchForm).2 with
    | false => rfl
    | true =>
      exfalso
      have hk := (noKeys_search _).mp hb
      exact h ⟨(pincodeError_eq_none _ _ _).mp hk.2.1, (pincodeError_eq_none _ _ _).mp hk.2.2.1⟩
  refine ⟨hv, ?_, ?_⟩ <;> simp [handleSearch, hv]

theorem pincode_six_digits_gate_witness :
    (validateSearchForm 0 (⟨"500", "40000a", "400002", some 600000⟩ : SearchForm)).2 = false ∧
    (handleSearch 0 (.ok (some []) none)
      ⟨⟨"500", "40000a", "400002", some 600000⟩, [], {}, false, false⟩).2 = {} :=
  have h := (pincode_six_digits_gate 0 (.ok (some []) none)
    ⟨⟨"500", "40000a", "400002", some 600000⟩, [], {}, false, false⟩).2.2 (by decide)
  ⟨h.1, h.2.1⟩

/-! ### Lemmas on the add-vehicle form -/

theorem noKeys_vehicle (e : VehicleErrors) :
    e.noKeys = true ↔ e.name = none ∧ e.capacityKg = none ∧ e.tyres = none ∧
      e.registrationNumber = none := by
  simp [VehicleErrors.noKeys, Option.isNone_iff_eq_none, and_assoc]

theorem capacityKgError_eq_none (s : String) :
    capacityKgError s = none ↔ ∃ c, jsParseInt s = some c ∧ 0 < c ∧ c ≤ 100000 := by
  unfold capacityKgError
  by_cases h0 : s = ""
  · subst h0
    simp only [if_true]
    constructor
    · intro h; cases h
    · rintro ⟨c, hc, -⟩
      have h : jsParseInt "" = none := by decide
      rw [h] at hc
      cases hc
  · rw [if_neg h0]
    cases h : jsParseInt s with
    | none => simp
    | some c =>
      show (if c ≤ 0 then some "Capacity must be a positive number"
        else if c > 100000 then some "Capacity cannot exceed 100,000 kg" else none) = none ↔ _
      by_cases hc : c ≤ 0
      · rw [if_pos hc]
        constructor
        · intro h'; cases h'
        · rintro ⟨d, hd, h1, -⟩
          cases hd
          omega
      · rw [if_neg hc]
        by_cases hc2 : c > 100000
        · rw [if_pos hc2]
          constructor
          · intro h'; cases h'
          · rintro ⟨d, hd, -, h2⟩
            cases hd
            omega
        · rw [if_neg hc2]
          exact ⟨fun _ => ⟨c, rfl, by omega, by omega⟩, fun _ => rfl⟩

theorem tyresError_eq_none (s : String) :
    tyresError s = none ↔ ∃ n, jsParseInt s = some n ∧ 2 ≤ n ∧ n ≤ 20 := by
  unfold tyresError
  by_cases h0 : s = ""
  · subst h0
    simp only [if_true]
    constructor
    · intro h; cases h
    · rintro ⟨c, hc, -⟩
      have h : jsParseInt "" = none := by decide
      rw [h] at hc
      cases hc
  · rw [if_neg h0]
    cases h : jsParseInt s with
    | none => simp
    | some c =>
      show (if c < 2 then some "Vehicle must have at least 2 tyres"
        else if c > 20 then some "Vehicle cannot have more than 20 tyres" else none) = none ↔ _
      by_cases hc : c < 2
      · rw [if_pos hc]
        constructor
        · intro h'; cases h'
        · rintro ⟨d, hd, h1, -⟩
          cases hd
          omega
      · rw [if_neg hc]
        by_cases hc2 : c > 20
        · rw [if_pos hc2]
          constructor
          · intro h'; cases h'
          · rintro ⟨d, hd, -, h2⟩
            cases hd
            omega
        · rw [if_neg hc2]
          exact ⟨fun _ => ⟨c, rfl, by omega, by omega⟩, fun _ => rfl⟩

/-- A capacity string with no positive leading integer: empty, read by `parseInt` as NaN
or as an integer at most zero, or the decimal notation of a number at most zero. -/
theorem no_positive_capacity (cap : String)
    (h : cap = "" ∨ jsParseInt cap = none ∨ (∃ c, jsParseInt cap = some c ∧ c ≤ 0) ∨
      (∃ q, decimalValue cap = some q ∧ q ≤ 0)) :
    ¬ ∃ c, jsParseInt cap = some c ∧ 0 < c := by
  rintro ⟨c, hc, hpos⟩
  rcases h with h | h | ⟨d, hd, hle⟩ | ⟨q, hq, hle⟩
  · subst h
    have h : jsParseInt "" = none := by decide
    rw [h] at hc
    cases hc
  · rw [h] at hc; cases hc
  · rw [hd] at hc
    cases hc
    omega
  · obtain ⟨d, hd, hle'⟩ := parseInt_of_decimal_nonpos cap q hq hle
    rw [hd] at hc
    cases hc
    omega

theorem hasHexPrefix_of_head (l : List Char)
    (h : ∀ c, (l.dropWhile Char.isDigit).head? = some c → c ≠ 'x' ∧ c ≠ 'X') :
    hasHexPrefix l = false := by
  match l, h with
  | [], _ => rfl
  | [_], _ => rfl
  | a :: b :: r, h =>
    simp only [hasHexPrefix]
    by_cases ha : a.isDigit = true
    · by_cases hb : b.isDigit = true
      · have hb' := (isDigit_iff_toNat b).mp hb
        have hx : (b == 'x') = false := by
          rw [beq_eq_false_iff_ne]; rintro rfl; revert hb'; decide
        have hX : (b == 'X') = false := by
          rw [beq_eq_false_iff_ne]; rintro rfl; revert hb'; decide
        simp [hx, hX]
      · have hb' : b.isDigit = false := by simpa using hb
        have := h b (by simp [List.dropWhile_cons, ha, hb'])
        have hx : (b == 'x') = false := by rw [beq_eq_false_iff_ne]; exact this.1
        have hX : (b == 'X') = false := by rw [beq_eq_false_iff_ne]; exact this.2
        simp [hx, hX]
    · have ha' : a.isDigit = false := by simpa using ha
      have : (a == '0') = false := by
        rw [beq_eq_false_iff_ne]; rintro rfl; revert ha; decide
      simp [this]

theorem head_after_digits_of_rest (r1 : List Char)
    (h : (if hasExponent (afterFraction r1) then
        (stripSign (afterFraction r1).tail).dropWhile Char.isDigit
      else afterFraction r1) = []) :
    ∀ c, r1.head? = some c → c = '.' ∨ c = 'e' ∨ c = 'E' := by
  intro c hc
  by_contra hne
  push_neg at hne
  have h1 : afterFraction r1 = r1 := by
    unfold afterFraction
    rw [if_neg]
    rw [hc]
    intro h'
    exact hne.1 (Option.some.inj h')
  have h2 : hasExponent r1 = false := by
    unfold hasExponent
    rw [hc]
    have e1 : ¬ some c = some 'e' := fun h' => hne.2.1 (Option.some.inj h')
    have e2 : ¬ some c = some 'E' := fun h' => hne.2.2 (Option.some.inj h')
    simp [e1, e2]
  rw [h1, h2] at h
  simp only [Bool.false_eq_true, if_false] at h
  rw [h] at hc
  cases hc

/-- Every value of a number field that denotes a number at most zero is read by `parseInt`
as NaN or as an integer at most zero. -/
theorem parseInt_of_number_field_nonpos (s : String) (q : ℚ)
    (hq : numberFieldValue s = some q) (hle : q ≤ 0) :
    ¬ ∃ c, jsParseInt s = some c ∧ 0 < c := by
  unfold numberFieldValue at hq
  simp only at hq
  rw [Option.ite_none_right_eq_some] at hq
  obtain ⟨⟨hstart, -, -, hrest⟩, hq⟩ := hq
  have hq' := Option.some.inj hq
  clear hq
  -- abbreviations
  generalize hbody : (if s.data.head? = some '-' then s.data.tail else s.data) = body at *
  have hr1 := head_after_digits_of_rest (body.dropWhile Char.isDigit) hrest
  -- the head of the body is a digit or a point
  have hbodyhead : ∀ c, body.head? = some c → c.isDigit = true ∨ c = '.' := by
    intro c hc
    by_cases hd : c.isDigit = true
    · exact Or.inl hd
    · right
      have hd' : c.isDigit = false := by simpa using hd
      cases hb : body with
      | nil => rw [hb] at hc; cases hc
      | cons a r =>
        rw [hb] at hc hstart
        simp only [List.head?_cons, Option.some.injEq] at hc
        subst hc
        simp only [List.takeWhile_cons, hd', Bool.false_eq_true, if_false, ne_eq,
          not_true_eq_false, List.dropWhile_cons, List.head?_cons, Option.some.injEq,
          false_or] at hstart
        exact hstart
  have hbodyne : body ≠ [] := by
    intro hb
    rw [hb] at hstart
    simp at hstart
  have notws : ∀ c, (c.isDigit = true ∨ c = '.' ∨ c = '-') → isJsWhiteSpace c = false := by
    intro c hc
    rcases hc with hc | rfl | rfl
    · exact isDigit_not_ws c hc
    · decide
    · decide
  -- no leading white space, and the body is what follows the sign
  have hsplit : s.data.dropWhile isJsWhiteSpace = s.data ∧ stripSign s.data = body := by
    by_cases hneg : s.data.head? = some '-'
    · rw [if_pos hneg] at hbody
      cases hl : s.data with
      | nil => rw [hl] at hneg; cases hneg
      | cons a l =>
        rw [hl] at hneg hbody
        simp only [List.head?_cons, Option.some.injEq] at hneg
        subst hneg
        simp only [List.tail_cons] at hbody
        refine ⟨?_, ?_⟩
        · have : isJsWhiteSpace '-' = false := by decide
          simp [List.dropWhile_cons, this]
        · simp [stripSign, hbody]
    · rw [if_neg hneg] at hbody
      rw [hbody]
      cases hb : body with
      | nil => exact absurd hb hbodyne
      | cons a l =>
        have ha := hbodyhead a (by rw [hb]; rfl)
        have hws : isJsWhiteSpace a = false :=
          notws a (ha.elim Or.inl (fun h => Or.inr (Or.inl h)))
        have hm : a ≠ '-' := by
          rintro rfl
          apply hneg
          rw [hbody, hb]; rfl
        have hp : a ≠ '+' := by
          rintro rfl
          rcases ha with ha | ha
          · revert ha; decide
          · revert ha; decide
        refine ⟨by simp [List.dropWhile_cons, hws], ?_⟩
        simp [stripSign, hm, hp]
  obtain ⟨hws, hstrip⟩ := hsplit
  have hhex : hasHexPrefix body = false := by
    apply hasHexPrefix_of_head
    intro c hc
    rcases hr1 c hc with rfl | rfl | rfl <;> decide
  have hfun : (fun c => (radixDigit 10 c).isSome) = Char.isDigit := funext radixDigit_ten
  have hall : ∀ c ∈ body.takeWhile Char.isDigit, c.isDigit = true :=
    fun c hc => List.mem_takeWhile_imp hc
  rintro ⟨c, hc, hpos⟩
  unfold jsParseInt at hc
  simp only [hws, hstrip, hhex, Bool.false_eq_true, if_false, hfun] at hc
  split at hc
  · cases hc
  · have hc' := Option.some.inj hc
    rw [foldl_digits _ hall] at hc'
    by_cases hneg : s.data.head? = some '-'
    · rw [if_pos hneg] at hc'
      have : (0 : Int) ≤ ((List.foldl (fun acc c => acc * 10 + (c.toNat - 48)) 0
        (body.takeWhile Char.isDigit) : Nat) : Int) := Int.natCast_nonneg _
      omega
    · rw [if_neg hneg] at hc' hq'
      have hpow : (0 : ℚ) < (10 : ℚ) ^
          (if hasExponent (afterFraction (body.dropWhile Char.isDigit)) = true then
            if (afterFraction (body.dropWhile Char.isDigit)).tail.head? = some '-' then
              -(digitsNat ((stripSign (afterFraction (body.dropWhile Char.isDigit)).tail).takeWhile
                Char.isDigit) : Int)
            else (digitsNat
              ((stripSign (afterFraction (body.dropWhile Char.isDigit)).tail).takeWhile
                Char.isDigit) : Int)
          else 0) := by positivity
      have hfrac : (0 : ℚ) ≤
          (digitsNat (fractionDigits (body.dropWhile Char.isDigit)) : ℚ) /
            10 ^ (fractionDigits (body.dropWhile Char.isDigit)).length := by positivity
      have hm : (digitsNat (body.takeWhile Char.isDigit) : ℚ) +
          (digitsNat (fractionDigits (body.dropWhile Char.isDigit)) : ℚ) /
            10 ^ (fractionDigits (body.dropWhile Char.isDigit)).length ≤ 0 := by
        by_contra hgt
        push_neg at hgt
        have := mul_pos hgt hpow
        rw [← hq', one_mul] at hle
        linarith
      have hip0 : (digitsNat (body.takeWhile Char.isDigit) : ℚ) ≤ 0 := by linarith
      have hz : digitsNat (body.takeWhile Char.isDigit) = 0 := by
        have := Nat.cast_nonneg (α := ℚ) (digitsNat (body.takeWhile Char.isDigit))
        exact_mod_cast le_antisymm hip0 this
      unfold digitsNat at hz
      rw [hz] at hc'
      simp at hc'
      omega
theorem capacity_rejected_of_no_positive (now : Int) (cap : String)
    (vp : VehiclePage) (sp : SearchPage) (o1 : ApiOutcome Unit)
    (o2 : ApiOutcome (Option (List Vehicle)))
    (hv : vp.formData.capacityKg = cap) (hs : sp.searchForm.capacityRequired = cap)
    (hno : ¬ ∃ c, jsParseInt cap = some c ∧ 0 < c) :
    ((validateForm vp.formData).2 = false ∧
      (validateForm vp.formData).1.capacityKg.isSome = true ∧
      (handleSubmit o1 vp).2 = {}) ∧
    ((validateSearchForm now sp.searchForm).2 = false ∧
      (validateSearchForm now sp.searchForm).1.capacityRequired.isSome = true ∧
      (handleSearch now o2 sp).2 = {}) := by
  have e1 : (validateForm vp.formData).1.capacityKg ≠ none := by
    intro he
    have he' : capacityKgError vp.formData.capacityKg = none := he
    obtain ⟨c, hc, hpos, -⟩ := (capacityKgError_eq_none _).mp he'
    exact hno ⟨c, hv ▸ hc, hpos⟩
  have e2 : (validateSearchForm now sp.searchForm).1.capacityRequired ≠ none := by
    intro he
    have he' : searchCapacityError sp.searchForm.capacityRequired = none := he
    obtain ⟨c, hc, hpos⟩ := (searchCapacityError_eq_none _).mp he'
    exact hno ⟨c, hs ▸ hc, hpos⟩
  have v1 : (validateForm vp.formData).2 = false := by
    cases hb : (validateForm vp.formData).2 with
    | false => rfl
    | true => exact absurd ((noKeys_vehicle _).mp hb).2.1 e1
  have v2 : (validateSearchForm now sp.searchForm).2 = false := by
    cases hb : (validateSearchForm now sp.searchForm).2 with
    | false => rfl
    | true => exact absurd ((noKeys_search _).mp hb).1 e2
  refine ⟨⟨v1, ?_, ?_⟩, ⟨v2, ?_, ?_⟩⟩
  · exact Option.isSome_iff_ne_none.mpr e1
  · simp [handleSubmit, v1]
  · exact Option.isSome_iff_ne_none.mpr e2
  · simp [handleSearch, v2]

theorem numberFieldValue_nonpos_of_minus (s : String) (q : ℚ)
    (hq : numberFieldValue s = some q) (hneg : s.data.head? = some '-') : q ≤ 0 := by
  unfold numberFieldValue at hq
  simp only at hq
  rw [Option.ite_none_right_eq_some] at hq
  have hq' := Option.some.inj hq.2
  rw [if_pos hneg] at hq'
  rw [← hq']
  refine mul_nonpos_iff.mpr (Or.inr ⟨?_, by positivity⟩)
  rw [neg_one_mul]
  exact neg_nonpos.mpr (by positivity)

/-- C5: for every string the capacity field can hold (the empty string or a valid
floating-point number, the fields being `<input type="number">`) that is not a number or
whose value is at most zero, both `validateForm` and `validateSearchForm` return false with
an error on the capacity field, and `handleSubmit` and `handleSearch` return without a
request and without any other effect. -/
theorem capacity_field_non_positive_rejected (now : Int) (cap : String)
    (vp : VehiclePage) (sp : SearchPage) (o1 : ApiOutcome Unit)
    (o2 : ApiOutcome (Option (List Vehicle)))
    (hv : vp.formData.capacityKg = cap) (hs : sp.searchForm.capacityRequired = cap)
    (hfield : NumberFieldHolds cap)
    (h : numberFieldValue cap = none ∨ ∃ q, numberFieldValue cap = some q ∧ q ≤ 0) :
    ((validateForm vp.formData).2 = false ∧
      (validateForm vp.formData).1.capacityKg.isSome = true ∧
      (handleSubmit o1 vp).2 = {}) ∧
    ((validateSearchForm now sp.searchForm).2 = false ∧
      (validateSearchForm now sp.searchForm).1.capacityRequired.isSome = true ∧
      (handleSearch now o2 sp).2 = {}) := by
  apply capacity_rejected_of_no_positive now cap vp sp o1 o2 hv hs
  have hcases : cap = "" ∨ ∃ q, numberFieldValue cap = some q ∧ q ≤ 0 := by
    rcases h with h | h
    · rcases hfield with hf | hf
      · exact Or.inl hf
      · rw [h] at hf; cases hf
    · exact Or.inr h
  rcases hcases with rfl | ⟨q, hq, hle⟩
  · rintro ⟨c, hc, -⟩
    have h0 : jsParseInt "" = none := by decide
    rw [h0] at hc
    cases hc
  · exact parseInt_of_number_field_nonpos cap q hq hle

theorem capacity_field_non_positive_rejected_witness :
    (validateForm (⟨"Tata Ace", "-5", "4", "truck", ""⟩ : VehicleForm)).2 = false ∧
    (handleSearch 0 (.ok (some []) none)
      ⟨⟨"-5", "400001", "400002", some 600000⟩, [], {}, false, false⟩).2 = {} :=
  have h := capacity_field_non_positive_rejected 0 "-5"
    ⟨⟨"Tata Ace", "-5", "4", "truck", ""⟩, {}, false⟩
    ⟨⟨"-5", "400001", "400002", some 600000⟩, [], {}, false, false⟩
    (.ok () none) (.ok (some []) none) rfl rfl (Or.inr (by decide))
    (Or.inr ((Option.isSome_iff_exists.mp (by decide)).elim
      (fun q hq => ⟨q, hq, numberFieldValue_nonpos_of_minus "-5" q hq (by decide)⟩)))
  ⟨h.1.1, h.2.2.2⟩

/-! ### Lemmas on the registration number and the name -/

theorem isLower_iff_toNat (c : Char) : c.isLower = true ↔ 97 ≤ c.toNat ∧ c.toNat ≤ 122 := by
  simp only [Char.isLower, Bool.and_eq_true, decide_eq_true_eq, ge_iff_le]
  exact Iff.rfl

theorem isUpper_iff_toNat (c : Char) : c.isUpper = true ↔ 65 ≤ c.toNat ∧ c.toNat ≤ 90 := by
  simp only [Char.isUpper, Bool.and_eq_true, decide_eq_true_eq, ge_iff_le]
  exact Iff.rfl

theorem toUpper_of_isLower (c : Char) (h : c.isLower = true) : c.toUpper.isUpper = true := by
  have h' := (isLower_iff_toNat c).mp h
  unfold Char.toUpper
  simp only [ge_iff_le, h', and_self, if_true]
  obtain ⟨h1, h2⟩ := h'
  generalize c.toNat = n at h1 h2
  interval_cases n <;> decide

theorem toUpper_of_not_isLower (c : Char) (h : c.isLower = false) : c.toUpper = c := by
  have h' : ¬ (97 ≤ c.toNat ∧ c.toNat ≤ 122) := by
    rw [← isLower_iff_toNat]; simp [h]
  unfold Char.toUpper
  simp only [ge_iff_le, h', if_false]

theorem isUpper_not_isLower (c : Char) (h : c.isUpper = true) : c.isLower = false := by
  have h1 := (isUpper_iff_toNat c).mp h
  cases hl : c.isLower with
  | false => rfl
  | true => have := (isLower_iff_toNat c).mp hl; omega

theorem toUpper_isUpper (c : Char) : c.toUpper.isUpper = c.isAlpha := by
  unfold Char.isAlpha
  cases hl : c.isLower with
  | true => simp [toUpper_of_isLower c hl]
  | false => simp [toUpper_of_not_isLower c hl]

theorem regClass_eq (c : Char) : regClass c = spacedRegChar c := by
  simp only [regClass, spacedRegChar, toUpper_isUpper]

theorem ws_not_isAlpha (c : Char) (h : isJsWhiteSpace c = true) : c.isLower = false := by
  cases hl : c.isLower with
  | false => rfl
  | true =>
    have := (isLower_iff_toNat c).mp hl
    simp only [isJsWhiteSpace, Bool.or_eq_true, beq_iff_eq, Bool.and_eq_true,
      decide_eq_true_eq] at h
    omega

theorem upperRegChar_toUpper (c : Char) (h : regClass c = true) :
    upperRegChar c.toUpper = true := by
  rw [regClass_eq] at h
  cases hl : c.isLower with
  | true => simp [upperRegChar, toUpper_of_isLower c hl]
  | false =>
    rw [toUpper_of_not_isLower c hl]
    simpa [spacedRegChar, upperRegChar, Char.isAlpha, hl] using h

theorem testRegistration_iff (s : String) :
    testRegistration s = true ↔ s ≠ "" ∧ ∀ c ∈ s.data, regClass c = true := by
  unfold testRegistration
  simp only [Bool.and_eq_true, decide_eq_true_eq, List.isEmpty_iff, List.dropWhile_eq_nil_iff]
  constructor
  · rintro ⟨hlen, hall⟩
    refine ⟨?_, hall⟩
    rintro rfl
    simp at hlen
  · rintro ⟨hne, hall⟩
    refine ⟨?_, hall⟩
    have : s.data.dropWhile regClass = [] := List.dropWhile_eq_nil_iff.mpr hall
    rw [this]
    have : s.data ≠ [] := fun h => hne (by cases s; simp_all)
    exact List.length_pos.mpr this

theorem registrationError_eq_none (s : String) :
    registrationError s = none ↔ s = "" ∨ ∀ c ∈ s.data, regClass c = true := by
  unfold registrationError
  by_cases h0 : s = ""
  · simp [h0]
  · have := testRegistration_iff s
    cases ht : testRegistration s with
    | true =>
      rw [ht] at this
      simp only [ne_eq, h0, not_false_eq_true, Bool.not_true, Bool.false_eq_true, and_false,
        if_false, false_or, true_iff]
      exact (this.mp rfl).2
    | false =>
      rw [ht] at this
      have hn : ¬ ∀ c ∈ s.data, regClass c = true := fun hall => by
        have := this.mpr ⟨h0, hall⟩
        cases this
      simp only [ne_eq, h0, not_false_eq_true, Bool.not_false, and_self, if_true, false_or]
      constructor
      · intro h; cases h
      · intro h; exact absurd h hn

theorem trimChars_isTrimOf (l : List Char) : IsTrimOf (trimChars l) l := by
  unfold trimChars
  set m := l.dropWhile isJsWhiteSpace with hm
  refine ⟨l.takeWhile isJsWhiteSpace, ((m.reverse).takeWhile isJsWhiteSpace).reverse, ?_, ?_, ?_, ?_, ?_⟩
  · have h1 : l = l.takeWhile isJsWhiteSpace ++ m := (List.takeWhile_append_dropWhile _ _).symm
    have h2 : m.reverse = m.reverse.takeWhile isJsWhiteSpace ++ m.reverse.dropWhile isJsWhiteSpace :=
      (List.takeWhile_append_dropWhile _ _).symm
    have h3 : m = (m.reverse.dropWhile isJsWhiteSpace).reverse ++
        (m.reverse.takeWhile isJsWhiteSpace).reverse := by
      rw [← List.reverse_append, ← h2, List.reverse_reverse]
    rw [List.append_assoc, ← h3]
    exact h1
  · intro c hc; exact List.mem_takeWhile_imp hc
  · intro c hc; exact List.mem_takeWhile_imp (List.mem_reverse.mp hc)
  · intro c hc
    have h3 : m = (m.reverse.dropWhile isJsWhiteSpace).reverse ++
        (m.reverse.takeWhile isJsWhiteSpace).reverse := by
      rw [← List.reverse_append, List.takeWhile_append_dropWhile, List.reverse_reverse]
    have hhead : m.head? = some c := by
      rw [h3, List.head?_append, hc]; rfl
    have := List.head?_dropWhile_not isJsWhiteSpace l
    rw [← hm, hhead] at this
    simpa using this
  · intro c hc
    rw [List.getLast?_reverse] at hc
    have := List.head?_dropWhile_not isJsWhiteSpace m.reverse
    rw [hc] at this
    simpa using this



theorem mem_of_mem_trimChars (l : List Char) (c : Char) (h : c ∈ trimChars l) : c ∈ l := by
  obtain ⟨pre, post, hl, -⟩ := trimChars_isTrimOf l
  rw [hl]
  simp [h]

theorem spaced_of_plain (c : Char) (h : plainRegChar c = true) : spacedRegChar c = true := by
  simp only [plainRegChar, spacedRegChar, Bool.or_eq_true, beq_iff_eq] at h ⊢
  rcases h with ((h | h) | h) | h
  · exact Or.inl (Or.inl (Or.inl h))
  · exact Or.inl (Or.inl (Or.inr h))
  · exact Or.inl (Or.inr h)
  · subst h; exact Or.inr (by decide)

theorem jsLength_nil_lt (s : String) (h : 2 ≤ jsLength s) : s ≠ "" := by
  rintro rfl
  revert h
  decide

theorem nameError_eq_none (name : String) :
    nameError name = none ↔ 2 ≤ jsLength (jsTrim name) := by
  unfold nameError
  by_cases h0 : jsTrim name = ""
  · rw [if_pos h0, h0]
    constructor
    · intro h; cases h
    · intro h; exact absurd h (by decide)
  · rw [if_neg h0]
    by_cases h2 : jsLength (jsTrim name) < 2
    · rw [if_pos h2]
      constructor
      · intro h; cases h
      · intro h; omega
    · rw [if_neg h2]
      exact ⟨fun _ => by omega, fun _ => rfl⟩

/-- C6 (as amended): a non-empty registration number made only of letters, digits, hyphens
and white-space characters gets no error, and the payload carries it with the surrounding
white space trimmed and the letters upper-cased (`mh12ab1234` becomes `MH12AB1234`); a
registration number containing any character that is not a letter, digit, hyphen or
white-space character (such as `/` in `MH-12/AB`) gets an error and `validateForm` returns
false. -/
theorem registration_pattern (f : VehicleForm) :
    (f.registrationNumber ≠ "" →
      (∀ c ∈ f.registrationNumber.data, spacedRegChar c = true) →
      (validateForm f).1.registrationNumber = none ∧
      (vehicleDataOf f).registrationNumber =
        some (jsToUpperCase (jsTrim f.registrationNumber)) ∧
      IsTrimOf (jsTrim f.registrationNumber).data f.registrationNumber.data ∧
      (jsToUpperCase (jsTrim f.registrationNumber)).data =
        (jsTrim f.registrationNumber).data.map Char.toUpper) ∧
    ((∃ c ∈ f.registrationNumber.data, spacedRegChar c = false) →
      (validateForm f).1.registrationNumber.isSome = true ∧ (validateForm f).2 = false) ∧
    ((validateForm { f with registrationNumber := "mh12ab1234" }).1.registrationNumber = none ∧
      (vehicleDataOf { f with registrationNumber := "mh12ab1234" }).registrationNumber =
        some "MH12AB1234") ∧
    (validateForm { f with registrationNumber := "MH-12/AB" }).1.registrationNumber.isSome
      = true := by
  have e1 : registrationError "mh12ab1234" = none := by decide
  have e2 : (if "mh12ab1234" ≠ "" then some (jsToUpperCase (jsTrim "mh12ab1234")) else none)
      = some "MH12AB1234" := by decide
  have e3 : (registrationError "MH-12/AB").isSome = true := by decide
  refine ⟨?_, ?_, ⟨e1, e2⟩, e3⟩
  · intro hne hall
    refine ⟨?_, ?_, trimChars_isTrimOf _, rfl⟩
    · show registrationError f.registrationNumber = none
      rw [registrationError_eq_none]
      exact Or.inr (fun c hc => by rw [regClass_eq]; exact hall c hc)
    · simp [vehicleDataOf, hne]
  · rintro ⟨c, hc, hbad⟩
    have he : (validateForm f).1.registrationNumber ≠ none := by
      intro h
      have h' : registrationError f.registrationNumber = none := h
      rw [registrationError_eq_none] at h'
      rcases h' with h' | h'
      · rw [h'] at hc; simp at hc
      · have := h' c hc
        rw [regClass_eq, hbad] at this
        cases this
    refine ⟨Option.isSome_iff_ne_none.mpr he, ?_⟩
    cases hb : (validateForm f).2 with
    | false => rfl
    | true => exact absurd ((noKeys_vehicle _).mp hb).2.2.2 he

theorem registration_pattern_witness :
    (validateForm (⟨"Tata Ace", "1000", "4", "truck", "mh 12-ab"⟩ : VehicleForm)).1.registrationNumber
      = none ∧
    (validateForm (⟨"Tata Ace", "1000", "4", "truck", "MH-12/AB"⟩ : VehicleForm)).2 = false :=
  ⟨((registration_pattern ⟨"Tata Ace", "1000", "4", "truck", "mh 12-ab"⟩).1
      (by decide) (by decide)).1,
    ((registration_pattern ⟨"Tata Ace", "1000", "4", "truck", "MH-12/AB"⟩).2.1
      (by decide)).2⟩

/-- C6 (counterexample): `MH<tab>12` contains a tab, which is not a letter, digit, hyphen or
space, yet `validateForm` sets no registration-number error and returns true. -/
theorem registration_tab_accepted :
    (∃ c ∈ "MH\t12".data, plainRegChar c = false) ∧
    validateForm ⟨"Tata Ace", "1000", "4", "truck", "MH\t12"⟩ = ({}, true) := by
  decide

/-- C7 (as amended): when the form passes `validateForm` and the payload carries a
registration number, every character of it is an upper-case letter, a digit, a hyphen or a
white-space character. -/
theorem payload_registration_chars (f : VehicleForm) (r : String)
    (hv : (validateForm f).2 = true) (hr : (vehicleDataOf f).registrationNumber = some r) :
    ∀ c ∈ r.data, upperRegChar c = true := by
  have he : registrationError f.registrationNumber = none := ((noKeys_vehicle _).mp hv).2.2.2
  simp only [vehicleDataOf] at hr
  by_cases hne : f.registrationNumber = ""
  · simp [hne] at hr
  · rw [if_pos hne] at hr
    cases hr
    rw [registrationError_eq_none] at he
    rcases he with he | he
    · exact absurd he hne
    · intro c hc
      simp only [jsToUpperCase, jsTrim, List.mem_map] at hc
      obtain ⟨d, hd, rfl⟩ := hc
      exact upperRegChar_toUpper d (he d (mem_of_mem_trimChars _ _ hd))

theorem payload_registration_chars_witness :
    (validateForm ⟨"Tata Ace", "1000", "4", "truck", " mh12 ab-1234 "⟩).2 = true ∧
    (vehicleDataOf ⟨"Tata Ace", "1000", "4", "truck", " mh12 ab-1234 "⟩).registrationNumber
      = some "MH12 AB-1234" ∧
    "MH12 AB-1234".data.all upperRegChar = true :=
  ⟨by decide, by decide,
    List.all_eq_true.mpr
      (payload_registration_chars ⟨"Tata Ace", "1000", "4", "truck", " mh12 ab-1234 "⟩
        "MH12 AB-1234" (by decide) (by decide))⟩

/-- C7 (counterexample): a form whose registration number is one space passes
`validateForm` and its payload carries the empty registration number; a form whose
registration number is `MH<tab>12` passes and its payload carries the tab. -/
theorem payload_registration_empty_or_tab :
    ((validateForm ⟨"Tata Ace", "1000", "4", "truck", " "⟩).2 = true ∧
      (vehicleDataOf ⟨"Tata Ace", "1000", "4", "truck", " "⟩).registrationNumber = some "") ∧
    ((validateForm ⟨"Tata Ace", "1000", "4", "truck", "MH\t12"⟩).2 = true ∧
      (vehicleDataOf ⟨"Tata Ace", "1000", "4", "truck", "MH\t12"⟩).registrationNumber
        = some "MH\t12" ∧
      ∃ c ∈ "MH\t12".data, plainRegChar c = false) := by
  decide

/-- C8: when the form passes `validateForm`, the payload handed to `addVehicle` has the
trimmed name, of at least 2 UTF-16 code units (the `length` of the string), an integer
capacity between 1 and 100000 and an integer tyre count between 2 and 20; conversely
`validateForm` returns false when the trimmed name is shorter than 2, the parsed capacity is
at most 0 or above 100000, or the parsed tyre count is below 2 or above 20. -/
theorem validated_vehicle_payload (o : ApiOutcome Unit) (s : VehiclePage) :
    ((validateForm s.formData).2 = true →
      (handleSubmit o s).2.requests = [vehicleDataOf s.formData] ∧
      (vehicleDataOf s.formData).name = jsTrim s.formData.name ∧
      IsTrimOf (vehicleDataOf s.formData).name.data s.formData.name.data ∧
      2 ≤ jsLength (vehicleDataOf s.formData).name ∧
      (∃ c, (vehicleDataOf s.formData).capacityKg = some c ∧ 1 ≤ c ∧ c ≤ 100000) ∧
      (∃ n, (vehicleDataOf s.formData).tyres = some n ∧ 2 ≤ n ∧ n ≤ 20)) ∧
    ((jsLength (jsTrim s.formData.name) < 2 ∨
        (∃ c, jsParseInt s.formData.capacityKg = some c ∧ (c ≤ 0 ∨ 100000 < c)) ∨
        (∃ n, jsParseInt s.formData.tyres = some n ∧ (n < 2 ∨ 20 < n))) →
      (validateForm s.formData).2 = false) := by
  constructor
  · intro hv
    obtain ⟨hn, hc, ht, -⟩ := (noKeys_vehicle _).mp hv
    have hn' : nameError s.formData.name = none := hn
    have hc' : capacityKgError s.formData.capacityKg = none := hc
    have ht' : tyresError s.formData.tyres = none := ht
    refine ⟨?_, rfl, trimChars_isTrimOf _, (nameError_eq_none _).mp hn', ?_, ?_⟩
    · cases o <;> simp [handleSubmit, hv]
    · obtain ⟨c, h1, h2, h3⟩ := (capacityKgError_eq_none _).mp hc'
      exact ⟨c, h1, by omega, h3⟩
    · exact (tyresError_eq_none _).mp ht'
  · intro h
    cases hb : (validateForm s.formData).2 with
    | false => rfl
    | true =>
      exfalso
      obtain ⟨hn, hc, ht, -⟩ := (noKeys_vehicle _).mp hb
      have hn' : nameError s.formData.name = none := hn
      have hc' : capacityKgError s.formData.capacityKg = none := hc
      have ht' : tyresError s.formData.tyres = none := ht
      rcases h with h | ⟨c, h1, h2⟩ | ⟨n, h1, h2⟩
      · have := (nameError_eq_none _).mp hn'
        omega
      · obtain ⟨d, hd, hd1, hd2⟩ := (capacityKgError_eq_none _).mp hc'
        rw [h1] at hd
        cases hd
        omega
      · obtain ⟨d, hd, hd1, hd2⟩ := (tyresError_eq_none _).mp ht'
        rw [h1] at hd
        cases hd
        omega

theorem validated_vehicle_payload_witness :
    (handleSubmit (.ok () none)
      ⟨⟨" Tata Ace ", "1000", "4", "truck", ""⟩, {}, false⟩).2.requests =
        [vehicleDataOf ⟨" Tata Ace ", "1000", "4", "truck", ""⟩] ∧
    (validateForm (⟨"T ", "1000", "4", "truck", ""⟩ : VehicleForm)).2 = false :=
  ⟨((validated_vehicle_payload (.ok () none)
      ⟨⟨" Tata Ace ", "1000", "4", "truck", ""⟩, {}, false⟩).1 (by decide)).1,
    (validated_vehicle_payload (.ok () none)
      ⟨⟨"T ", "1000", "4", "truck", ""⟩, {}, false⟩).2 (Or.inl (by decide))⟩

/-! ### Booking a vehicle -/

/-- C9 (as amended): for every search-form state whose `startDateTime` is set, every vehicle
and every outcome of `createBooking`, `handleBookVehicle` builds and submits one booking
request, with `endTime` equal to `startTime + 7200000` ms, a duration of 2 hours, the
vehicle's `_id` when truthy and else its `id`, the environment's customer id when set and
non-empty and else `demo-customer-001`, and the pincodes and start time of the form. -/
theorem booking_request_fields (env : Option String) (o : ApiOutcome Unit) (vehicle : Vehicle)
    (s : SearchPage) (t : Int) (ht : s.searchForm.startDateTime = some t) :
    ∃ bd, bookingDataOf env s.searchForm vehicle = some bd ∧
      (handleBookVehicle env o vehicle s).2.bookingRequests = [bd] ∧
      bd.startTime = t ∧ bd.endTime = t + 7200000 ∧ bd.estimatedRideDurationHours = 2 ∧
      bd.vehicleId = (if vehicle._id.truthy then vehicle._id else vehicle.id) ∧
      bd.customerId = (match env with
        | some e => if e ≠ "" then e else "demo-customer-001"
        | none => "demo-customer-001") ∧
      bd.fromPincode = s.searchForm.fromPincode ∧ bd.toPincode = s.searchForm.toPincode := by
  have hb : bookingDataOf env s.searchForm vehicle = some
      { vehicleId := jsOr vehicle._id vehicle.id
        customerId := customerId env
        fromPincode := s.searchForm.fromPincode
        toPincode := s.searchForm.toPincode
        startTime := t
        endTime := t + 2 * 60 * 60 * 1000
        estimatedRideDurationHours := 2 } := by
    simp [bookingDataOf, ht]
  refine ⟨_, hb, ?_, rfl, ?_, rfl, rfl, ?_, rfl, rfl⟩
  · cases o <;> simp [handleBookVehicle, hb]
  · show t + 2 * 60 * 60 * 1000 = t + 7200000
    norm_num
  · cases env <;> rfl

theorem booking_request_fields_witness :
    ∃ bd, bookingDataOf none ⟨"500", "400001", "400002", some 600000⟩
        ⟨.str "v1", .undefined, "Tata Ace", "truck", 1000, 4⟩ = some bd ∧
      bd.endTime = 600000 + 7200000 ∧ bd.customerId = "demo-customer-001" :=
  have ⟨bd, h1, _, _, h4, _, _, h7, _, _⟩ := booking_request_fields none (.ok () none)
    ⟨.str "v1", .undefined, "Tata Ace", "truck", 1000, 4⟩
    ⟨⟨"500", "400001", "400002", some 600000⟩, [], {}, false, false⟩ 600000 rfl
  ⟨bd, h1, h4, h7⟩

/-- C9 (counterexample): with `startDateTime` cleared (`null`), `handleBookVehicle` builds no
booking request and submits none; it shows the generic error notification. -/
theorem booking_request_absent_without_start :
    bookingDataOf none ⟨"500", "400001", "400002", none⟩
      ⟨.str "v1", .undefined, "Tata Ace", "truck", 1000, 4⟩ = none ∧
    (handleBookVehicle none (.ok () none) ⟨.str "v1", .undefined, "Tata Ace", "truck", 1000, 4⟩
      ⟨⟨"500", "400001", "400002", none⟩,
        [⟨.str "v1", .undefined, "Tata Ace", "truck", 1000, 4⟩], {}, false, false⟩).2 =
      { toasts := [showError "An unexpected error occurred while booking. Please try again."] } := by
  decide

/-- C10: when `createBooking` returns success, the result list after `handleBookVehicle` is
the previous list without the entries whose identifier equals that of the booked vehicle:
the booked vehicle is not in it, every vehicle with another identifier is kept, the order is
that of the previous list, and the only notification is one success notification whose
text contains the vehicle's name. -/
theorem handleBookVehicle_success (env : Option String) (d : Unit) (m : Option String)
    (vehicle : Vehicle) (s : SearchPage) (t : Int)
    (ht : s.searchForm.startDateTime = some t) :
    (handleBookVehicle env (.ok d m) vehicle s).1.searchResults =
      s.searchResults.filter (fun v => decide (v.key ≠ vehicle.key)) ∧
    vehicle ∉ (handleBookVehicle env (.ok d m) vehicle s).1.searchResults ∧
    (∀ v ∈ (handleBookVehicle env (.ok d m) vehicle s).1.searchResults, v.key ≠ vehicle.key) ∧
    (∀ v ∈ s.searchResults, v.key ≠ vehicle.key →
      v ∈ (handleBookVehicle env (.ok d m) vehicle s).1.searchResults) ∧
    ((handleBookVehicle env (.ok d m) vehicle s).1.searchResults).Sublist s.searchResults ∧
    ∃ pre post : String,
      (handleBookVehicle env (.ok d m) vehicle s).2.toasts =
        [⟨.success, pre ++ vehicle.name ++ post, 4000⟩] := by
  have hr : (handleBookVehicle env (.ok d m) vehicle s).1.searchResults =
      s.searchResults.filter (fun v => decide (v.key ≠ vehicle.key)) := by
    simp [handleBookVehicle, bookingDataOf, ht, Vehicle.key]
  have ht' : (handleBookVehicle env (.ok d m) vehicle s).2.toasts =
      [showSuccess ("🎉 Booking confirmed! Vehicle \"" ++ vehicle.name ++
        "\" has been booked successfully.")] := by
    simp [handleBookVehicle, bookingDataOf, ht]
  rw [hr]
  refine ⟨rfl, ?_, ?_, ?_, List.filter_sublist _, ?_⟩
  · intro h
    have := (List.mem_filter.mp h).2
    simp at this
  · intro v hv
    simpa using (List.mem_filter.mp hv).2
  · intro v hv hk
    exact List.mem_filter.mpr ⟨hv, by simpa using hk⟩
  · exact ⟨"🎉 Booking confirmed! Vehicle \"", "\" has been booked successfully.", ht'⟩

theorem handleBookVehicle_success_witness :
    (handleBookVehicle none (.ok () none) ⟨.str "v1", .undefined, "Tata Ace", "truck", 1000, 4⟩
      ⟨⟨"500", "400001", "400002", some 600000⟩,
        [⟨.str "v0", .undefined, "Eicher", "truck", 5000, 6⟩,
          ⟨.str "v1", .undefined, "Tata Ace", "truck", 1000, 4⟩,
          ⟨.undefined, .str "v2", "Bolero", "pickup", 1200, 4⟩], {}, false, false⟩).1.searchResults
      = [⟨.str "v0", .undefined, "Eicher", "truck", 5000, 6⟩,
          ⟨.undefined, .str "v2", "Bolero", "pickup", 1200, 4⟩] :=
  (handleBookVehicle_success none () none ⟨.str "v1", .undefined, "Tata Ace", "truck", 1000, 4⟩
    ⟨⟨"500", "400001", "400002", some 600000⟩,
      [⟨.str "v0", .undefined, "Eicher", "truck", 5000, 6⟩,
        ⟨.str "v1", .undefined, "Tata Ace", "truck", 1000, 4⟩,
        ⟨.undefined, .str "v2", "Bolero", "pickup", 1200, 4⟩], {}, false, false⟩
    600000 rfl).1.trans (by decide)

/-! ### Outcomes of booking and searching -/

theorem startDateTime_of_valid (now : Int) (f : SearchForm)
    (hv : (validateSearchForm now f).2 = true) :
    ∃ t, f.startDateTime = some t ∧ now + 300000 < t := by
  have h := ((noKeys_search _).mp hv).2.2.2
  have h' : startDateTimeError now f.startDateTime = none := h
  unfold startDateTimeError at h'
  cases hs : f.startDateTime with
  | none => rw [hs] at h'; cases h'
  | some t =>
    rw [hs] at h'
    refine ⟨t, rfl, ?_⟩
    by_contra hle
    have hle' : t ≤ now + 5 * 60 * 1000 := by omega
    simp only [if_pos hle'] at h'
    cases h'

/-- C11: when `createBooking` returns a failure result, or throws, or the booking step throws
before the request because `startDateTime` is `null`, `handleBookVehicle` leaves the result
list as it was and produces one error notification and nothing else. -/
theorem handleBookVehicle_failure (env : Option String) (error : Option String)
    (d : Unit) (m : Option String) (vehicle : Vehicle) (s : SearchPage) :
    ((handleBookVehicle env (.fail error) vehicle s).1.searchResults = s.searchResults ∧
      ∃ msg, (handleBookVehicle env (.fail error) vehicle s).2.toasts = [⟨.error, msg, 6000⟩]) ∧
    ((handleBookVehicle env .thrown vehicle s).1.searchResults = s.searchResults ∧
      ∃ msg, (handleBookVehicle env .thrown vehicle s).2.toasts = [⟨.error, msg, 6000⟩]) ∧
    ((handleBookVehicle env (.ok d m) vehicle
        { s with searchForm := { s.searchForm with startDateTime := none } }).1.searchResults
        = s.searchResults ∧
      ∃ msg, (handleBookVehicle env (.ok d m) vehicle
        { s with searchForm := { s.searchForm with startDateTime := none } }).2.toasts
        = [⟨.error, msg, 6000⟩]) := by
  refine ⟨?_, ?_, ?_⟩
  · cases hb : bookingDataOf env s.searchForm vehicle <;>
      simp [handleBookVehicle, hb, showError]
  · cases hb : bookingDataOf env s.searchForm vehicle <;>
      simp [handleBookVehicle, hb, showError]
  · simp [handleBookVehicle, bookingDataOf, showError]

/-- C12: for a search form that passes validation, when `searchAvailableVehicles` returns
success, `handleSearch` stores the returned `availableVehicles` (the empty list when the
field is absent), issues one request and shows one notification: the warning when the list
is empty, otherwise a success notification whose text carries the length of the list. -/
theorem handleSearch_success (now : Int) (data : Option (List Vehicle)) (m : Option String)
    (s : SearchPage) (hv : (validateSearchForm now s.searchForm).2 = true) :
    (∀ l, data = some l → (handleSearch now (.ok data m) s).1.searchResults = l) ∧
    (data = none → (handleSearch now (.ok data m) s).1.searchResults = []) ∧
    ((handleSearch now (.ok data m) s).1.searchResults.length = 0 →
      (handleSearch now (.ok data m) s).1.searchResults = [] ∧
      (handleSearch now (.ok data m) s).2.toasts =
        [⟨.warning,
          "No vehicles found matching your criteria. Please try different search parameters.",
          5000⟩]) ∧
    (0 < (handleSearch now (.ok data m) s).1.searchResults.length →
      (handleSearch now (.ok data m) s).2.toasts =
        [⟨.success,
          "Found " ++ toString (handleSearch now (.ok data m) s).1.searchResults.length ++
            " available vehicle(s) for your search.", 4000⟩]) ∧
    (handleSearch now (.ok data m) s).2.searchRequests.length = 1 := by
  obtain ⟨t, ht, -⟩ := startDateTime_of_valid now s.searchForm hv
  have hr : (handleSearch now (.ok data m) s).1.searchResults = data.getD [] := by
    simp [handleSearch, hv, ht]
  have htoast : (handleSearch now (.ok data m) s).2.toasts =
      if (data.getD []).length = 0 then
        [showWarning
          "No vehicles found matching your criteria. Please try different search parameters."]
      else
        [showSuccess
          ("Found " ++ toString (data.getD []).length ++ " available vehicle(s) for your search.")] := by
    simp [handleSearch, hv, ht]
  rw [hr, htoast]
  refine ⟨?_, ?_, ?_, ?_, ?_⟩
  · rintro l rfl; rfl
  · rintro rfl; rfl
  · intro h0
    exact ⟨List.length_eq_zero.mp h0, by rw [if_pos h0]; rfl⟩
  · intro hpos
    rw [if_neg (by omega)]; rfl
  · simp [handleSearch, hv, ht]

theorem handleSearch_success_witness :
    (handleSearch 0 (.ok (some [⟨.str "v1", .undefined, "Tata Ace", "truck", 1000, 4⟩]) none)
      ⟨⟨"500", "400001", "400002", some 600000⟩, [], {}, false, false⟩).2.toasts =
      [⟨.success, "Found 1 available vehicle(s) for your search.", 4000⟩] :=
  ((handleSearch_success 0 (some [⟨.str "v1", .undefined, "Tata Ace", "truck", 1000, 4⟩]) none
    ⟨⟨"500", "400001", "400002", some 600000⟩, [], {}, false, false⟩ (by decide)).2.2.2.1
      (by decide)).trans (by decide)

/-! ### Reachable states of the search-and-book page -/

/-- C13 (failing input): after a valid search that displays one vehicle, the user shortens the
`fromPincode` field to `40000` and presses `Book Now`; the booking request submitted carries
that five-character pincode. -/
theorem booking_request_with_edited_pincode :
    (searchRun none (initialSearchPage 0)
      [.input .capacityRequired "500", .input .fromPincode "400001",
        .input .toPincode "400002",
        .search 0 (.ok (some [⟨.str "v1", .undefined, "Tata Ace", "truck", 1000, 4⟩]) none),
        .input .fromPincode "40000",
        .book 0 (.ok () none)]).2 =
      [⟨.str "v1", "demo-customer-001", "40000", "400002", 600000, 7800000, 2⟩] ∧
    ¬ SixDigits "40000" := by
  decide

/-! ### Rounding to a double -/

theorem roundHalfEven_ge (x : ℚ) (n : ℤ) (h : (n : ℚ) ≤ x) : n ≤ roundHalfEven x := by
  have hf : n ≤ ⌊x⌋ := Int.le_floor.mpr h
  unfold roundHalfEven
  split_ifs <;> omega

theorem roundHalfEven_le (x : ℚ) (n : ℤ) (h : x ≤ (n : ℚ)) : roundHalfEven x ≤ n := by
  have hf : ⌊x⌋ ≤ n := by
    have := Int.floor_le x
    exact_mod_cast (this.trans h)
  have hlt : 0 < x - ⌊x⌋ → ⌊x⌋ + 1 ≤ n := by
    intro hd
    have h1 : ((⌊x⌋ : ℤ) : ℚ) < n := by linarith
    have : ⌊x⌋ < n := by exact_mod_cast h1
    omega
  unfold roundHalfEven
  split_ifs with h1 h2 h3
  · exact hf
  · exact hlt (by linarith)
  · exact hf
  · exact hlt (by linarith)

theorem roundHalfEven_near (x : ℚ) : |(roundHalfEven x : ℚ) - x| ≤ 1 / 2 := by
  have h0 := Int.floor_le x
  have h1 := Int.lt_floor_add_one x
  unfold roundHalfEven
  rw [abs_le]
  split_ifs with h2 h3 h4
  · constructor <;> linarith
  · push_cast; constructor <;> linarith
  · constructor <;> linarith
  · push_cast; constructor <;> linarith

theorem roundHalfEven_of_near (x : ℚ) (n : ℤ) (h : |x - n| < 1 / 2) : roundHalfEven x = n := by
  rw [abs_lt] at h
  have h1 := roundHalfEven_near x
  rw [abs_le] at h1
  have h2 : |((roundHalfEven x - n : ℤ) : ℚ)| < 1 := by
    rw [abs_lt]; push_cast; constructor <;> linarith
  have h3 : |roundHalfEven x - n| < 1 := by exact_mod_cast h2
  have := Int.abs_lt_one_iff.mp h3
  omega

theorem doubleSpacing_pos (x : ℚ) : 0 < doubleSpacing x := by
  unfold doubleSpacing; positivity

theorem doubleSpacing_eq (x : ℚ) (h0 : x ≠ 0) (h : |x| < 2 ^ 53) :
    ∃ j : ℕ, doubleSpacing x = 1 / (2 : ℚ) ^ j := by
  have hpos : 0 < |x| := abs_pos.mpr h0
  have hlog : Int.log 2 |x| < 53 := by
    rw [← Int.lt_zpow_iff_log_lt (by norm_num) hpos]
    exact_mod_cast h
  refine ⟨(52 - Int.log 2 |x|).toNat, ?_⟩
  unfold doubleSpacing
  have hj : ((52 - Int.log 2 |x|).toNat : ℤ) = 52 - Int.log 2 |x| := Int.toNat_of_nonneg (by omega)
  have : Int.log 2 |x| - 52 = -((52 - Int.log 2 |x|).toNat : ℤ) := by rw [hj]; ring
  rw [this, zpow_neg, zpow_natCast, one_div]

theorem roundDouble_ge (x : ℚ) (n : ℤ) (h : (n : ℚ) ≤ x) : (n : ℚ) ≤ roundDouble x := by
  unfold roundDouble
  split_ifs with hc
  · exact h
  · push_neg at hc
    obtain ⟨j, hj⟩ := doubleSpacing_eq x hc.1 hc.2
    rw [hj]
    have hp : (0 : ℚ) < 2 ^ j := by positivity
    have h1 : ((n * 2 ^ j : ℤ) : ℚ) ≤ x / (1 / 2 ^ j) := by
      push_cast
      rw [div_div_eq_mul_div, div_one]
      exact mul_le_mul_of_nonneg_right h hp.le
    have h2 := roundHalfEven_ge _ _ h1
    have h3 : ((n * 2 ^ j : ℤ) : ℚ) ≤ (roundHalfEven (x / (1 / 2 ^ j)) : ℚ) := by exact_mod_cast h2
    push_cast at h3
    rw [one_div] at h3
    rw [one_div, inv_mul_eq_div, le_div_iff₀ hp]
    exact h3

theorem roundDouble_le (x : ℚ) (n : ℤ) (h : x ≤ (n : ℚ)) : roundDouble x ≤ (n : ℚ) := by
  unfold roundDouble
  split_ifs with hc
  · exact h
  · push_neg at hc
    obtain ⟨j, hj⟩ := doubleSpacing_eq x hc.1 hc.2
    rw [hj]
    have hp : (0 : ℚ) < 2 ^ j := by positivity
    have h1 : x / (1 / 2 ^ j) ≤ ((n * 2 ^ j : ℤ) : ℚ) := by
      push_cast
      rw [div_div_eq_mul_div, div_one]
      exact mul_le_mul_of_nonneg_right h hp.le
    have h2 := roundHalfEven_le _ _ h1
    have h3 : (roundHalfEven (x / (1 / 2 ^ j)) : ℚ) ≤ ((n * 2 ^ j : ℤ) : ℚ) := by exact_mod_cast h2
    push_cast at h3
    rw [one_div] at h3
    rw [one_div, inv_mul_eq_div, div_le_iff₀ hp]
    exact h3

theorem roundDouble_near (x : ℚ) : |roundDouble x - x| ≤ doubleSpacing x / 2 := by
  have hu := doubleSpacing_pos x
  unfold roundDouble
  split_ifs with hc
  · simp only [sub_self, abs_zero]; linarith
  · have h := roundHalfEven_near (x / doubleSpacing x)
    have : doubleSpacing x * (roundHalfEven (x / doubleSpacing x) : ℚ) - x =
        doubleSpacing x * ((roundHalfEven (x / doubleSpacing x) : ℚ) - x / doubleSpacing x) := by
      field_simp
      ring
    rw [this, abs_mul, abs_of_pos hu]
    calc doubleSpacing x * |(roundHalfEven (x / doubleSpacing x) : ℚ) - x / doubleSpacing x|
        ≤ doubleSpacing x * (1 / 2) := mul_le_mul_of_nonneg_left h hu.le
      _ = doubleSpacing x / 2 := by ring

theorem doubleSpacing_present (x : ℚ) (h1 : 2 ^ 40 ≤ x) (h2 : x < 2 ^ 41) :
    doubleSpacing x = 1 / 4096 := by
  have hx : 0 < x := lt_of_lt_of_le (by norm_num) h1
  have habs : |x| = x := abs_of_pos hx
  have hlo : (40 : ℤ) ≤ Int.log 2 |x| := by
    rw [← Int.zpow_le_iff_le_log (by norm_num) (by rw [habs]; exact hx), habs]
    exact_mod_cast h1
  have hhi : Int.log 2 |x| < 41 := by
    rw [← Int.lt_zpow_iff_log_lt (by norm_num) (by rw [habs]; exact hx), habs]
    exact_mod_cast h2
  have : Int.log 2 |x| = 40 := by omega
  unfold doubleSpacing
  rw [this]
  norm_num

theorem roundDouble_of_near (x : ℚ) (n : ℤ) (h1 : 2 ^ 40 ≤ x) (h2 : x < 2 ^ 41)
    (h : |x * 4096 - n| < 1 / 2) : roundDouble x = n / 4096 := by
  have hx : 0 < x := lt_of_lt_of_le (by norm_num) h1
  have hc : ¬ (x = 0 ∨ 2 ^ 53 ≤ |x|) := by
    rw [abs_of_pos hx]
    push_neg
    exact ⟨hx.ne', lt_trans h2 (by norm_num)⟩
  unfold roundDouble
  rw [if_neg hc, doubleSpacing_present x h1 h2]
  have hdiv : x / (1 / 4096) = x * 4096 := by ring
  rw [hdiv, roundHalfEven_of_near _ n h]
  ring

theorem toastId_ge (now : Int) (random : ℚ) (hr : 0 ≤ random) :
    (now : ℚ) ≤ toastId now random :=
  roundDouble_ge _ now (by linarith)

theorem toastId_le (now : Int) (random : ℚ) (hr : random < 1) :
    toastId now random ≤ (now : ℚ) + 1 := by
  have := roundDouble_le ((now : ℚ) + random) (now + 1) (by push_cast; linarith)
  push_cast at this
  exact this

/-! ### Notification queue -/

theorem mem_removeToast (id : ℚ) (q : List Toast) (t : Toast) :
    t ∈ removeToast id q ↔ t ∈ q ∧ t.id ≠ id := by
  simp [removeToast, List.mem_filter]

theorem removeToast_of_not_mem (id : ℚ) (q : List Toast) (h : ∀ t ∈ q, t.id ≠ id) :
    removeToast id q = q := by
  unfold removeToast
  rw [List.filter_eq_self]
  intro t ht
  simpa using h t ht

/-- C14: `showToast` yields the previous queue followed by one new notification with the
given message, type and duration: the queue grows by one, its first entries are the previous
queue unchanged, the new notification is last, and `ToastContainer` renders in that order. -/
theorem showToast_appends (now : Int) (random : ℚ) (message : String) (type : ToastType)
    (duration : Nat) (q : List Toast) :
    showToast now random message type duration q =
      q ++ [⟨toastId now random, message, type, duration⟩] ∧
    (showToast now random message type duration q).length = q.length + 1 ∧
    (showToast now random message type duration q).take q.length = q ∧
    (showToast now random message type duration q).drop q.length =
      [⟨toastId now random, message, type, duration⟩] ∧
    toastContainer (showToast now random message type duration q) =
      toastContainer q ++ [(toastId now random, ⟨type, message, duration⟩)] := by
  refine ⟨rfl, ?_, ?_, ?_, ?_⟩
  · simp [showToast]
  · simp [showToast]
  · simp [showToast]
  · simp [showToast, toastContainer]

/-- C15 (as amended): the identifier given by `showToast` is the double nearest to the sum
of the clock reading and the draw. It differs from every identifier in the queue that is
below the clock reading, and from every identifier that is more than half the spacing of the
doubles away from the sum; when every identifier in the queue is one or the other, a queue
with pairwise distinct identifiers keeps pairwise distinct identifiers. For a sum from
`2 ^ 40` to below `2 ^ 41` (clock readings of the years 2004 to 2039) that spacing is
`1 / 4096` ms. -/
theorem showToast_fresh_when_separated (now : Int) (random : ℚ) (message : String)
    (type : ToastType) (duration : Nat) (q : List Toast)
    (hr : 0 ≤ random)
    (hq : ∀ t ∈ q, t.id < now ∨
      doubleSpacing (now + random) / 2 < |(now : ℚ) + random - t.id|) :
    (∀ t ∈ q, t.id ≠ toastId now random) ∧
    ((q.map Toast.id).Nodup →
      ((showToast now random message type duration q).map Toast.id).Nodup) ∧
    ((2 : ℚ) ^ 40 ≤ now + random → (now : ℚ) + random < 2 ^ 41 →
      doubleSpacing (now + random) = 1 / 4096) := by
  have hfresh : ∀ t ∈ q, t.id ≠ toastId now random := by
    intro t ht h
    rcases hq t ht with hlt | hfar
    · have := toastId_ge now random hr
      rw [h] at hlt
      linarith
    · have hnear := roundDouble_near ((now : ℚ) + random)
      rw [h] at hfar
      have : |(now : ℚ) + random - toastId now random| =
          |roundDouble ((now : ℚ) + random) - ((now : ℚ) + random)| := by
        rw [abs_sub_comm]; rfl
      rw [this] at hfar
      linarith
  refine ⟨hfresh, ?_, doubleSpacing_present _⟩
  intro hnd
  simp only [showToast, List.map_append, List.map_cons, List.map_nil]
  rw [List.nodup_append]
  refine ⟨hnd, List.nodup_singleton _, ?_⟩
  intro a ha hb
  rw [List.mem_singleton] at hb
  obtain ⟨t, ht, rfl⟩ := List.mem_map.mp ha
  exact hfresh t ht hb

theorem showToast_fresh_when_separated_witness :
    ((showToast 1002 (1 / 4) "b" .info 4000 (showToast 1000 (1 / 2) "a" .info 4000 [])).map
      Toast.id).Nodup :=
  (showToast_fresh_when_separated 1002 (1 / 4) "b" .info 4000
    (showToast 1000 (1 / 2) "a" .info 4000 []) (by norm_num)
    (by
      intro t ht
      simp only [showToast, List.nil_append, List.mem_singleton] at ht
      subst ht
      left
      have := toastId_le 1000 (1 / 2) (by norm_num)
      show toastId 1000 (1 / 2) < ((1002 : Int) : ℚ)
      push_cast at this ⊢
      linarith)).2.1 (by simp [showToast])

/-- C15 (counterexample): two calls of `showToast` give two notifications with the same
identifier when they come at the same clock reading with the same draw; the identifier is
also the same for a draw just below 1 and a draw just above 0 one millisecond later, and
for two draws of one millisecond that are closer than the spacing of the doubles. -/
theorem showToast_same_identifier :
    ((0 : ℚ) ≤ 1 / 2 ∧ (1 / 2 : ℚ) < 1 ∧
      ¬ ((showToast 1000 (1 / 2) "b" .info 4000
        (showToast 1000 (1 / 2) "a" .info 4000 [])).map Toast.id).Nodup) ∧
    toastId 1700000000000 (9999 / 10000) = toastId 1700000000001 (1 / 100000) ∧
    toastId 1700000000000 (1 / 2) = toastId 1700000000000 (1 / 2 + 1 / 100000) := by
  refine ⟨⟨by norm_num, by norm_num, by simp [showToast]⟩, ?_, ?_⟩
  · have h1 : toastId 1700000000000 (9999 / 10000) = (6963200000004096 : ℤ) / 4096 := by
      unfold toastId
      apply roundDouble_of_near <;> norm_num [abs_lt]
    have h2 : toastId 1700000000001 (1 / 100000) = (6963200000004096 : ℤ) / 4096 := by
      unfold toastId
      apply roundDouble_of_near <;> norm_num [abs_lt]
    rw [h1, h2]
  · have h1 : toastId 1700000000000 (1 / 2) = (6963200000002048 : ℤ) / 4096 := by
      unfold toastId
      apply roundDouble_of_near <;> norm_num [abs_lt]
    have h2 : toastId 1700000000000 (1 / 2 + 1 / 100000) =
        (6963200000002048 : ℤ) / 4096 := by
      unfold toastId
      apply roundDouble_of_near <;> norm_num [abs_lt]
    rw [h1, h2]

/-- C17: `removeToast(id)` keeps, in their order, exactly the notifications whose identifier
differs from `id`; it leaves the queue unchanged when no notification has that identifier,
and applying it twice is the same as applying it once. -/
theorem removeToast_filter_idempotent (id : ℚ) (q : List Toast) :
    (removeToast id q).Sublist q ∧
    (∀ t, t ∈ removeToast id q ↔ t ∈ q ∧ t.id ≠ id) ∧
    ((∀ t ∈ q, t.id ≠ id) → removeToast id q = q) ∧
    removeToast id (removeToast id q) = removeToast id q := by
  refine ⟨List.filter_sublist _, mem_removeToast id q, removeToast_of_not_mem id q, ?_⟩
  exact removeToast_of_not_mem id _ (fun t ht => ((mem_removeToast id q t).mp ht).2)

theorem removeToast_filter_idempotent_witness :
    removeToast 7 [⟨5, "a", .info, 4000⟩, ⟨6, "b", .error, 6000⟩] =
      [⟨5, "a", .info, 4000⟩, ⟨6, "b", .error, 6000⟩] :=
  (removeToast_filter_idempotent 7 [⟨5, "a", .info, 4000⟩, ⟨6, "b", .error, 6000⟩]).2.2.1
    (by simp)

theorem mem_fireTimers (timers : List PendingTimer) (q : List Toast) (x : Toast)
    (h : x ∈ fireTimers timers q) : x ∈ q ∧ ∀ timer ∈ timers, x.id ≠ timer.id := by
  induction timers generalizing q with
  | nil => exact ⟨h, by simp⟩
  | cons a l ih =>
    have h' : x ∈ fireTimers l (removeToast a.id q) := h
    obtain ⟨h1, h2⟩ := ih _ h'
    obtain ⟨h3, h4⟩ := (mem_removeToast _ _ _).mp h1
    refine ⟨h3, ?_⟩
    intro timer ht
    rcases List.mem_cons.mp ht with rfl | ht
    · exact h4
    · exact h2 timer ht

/-- The invariant behind the expiry of a notification enqueued at clock reading `t` with
identifier `i` and a timer due at `due`: the clock does not go back, the timer is pending
until it is due, and from then on no notification has the identifier `i`. -/
theorem expiry_invariant_step (t due : Int) (i : ℚ) (hi : i ≤ t + 1) (hdue : t + 300 ≤ due)
    (s : ToastState) (e : ToastEvent) (he : e.wellFormed)
    (h : t ≤ s.now ∧ (s.now < due → (⟨due, i⟩ : PendingTimer) ∈ s.timers) ∧
      (due ≤ s.now → ∀ x ∈ s.toasts, x.id ≠ i)) :
    t ≤ (toastStep s e).now ∧
      ((toastStep s e).now < due → (⟨due, i⟩ : PendingTimer) ∈ (toastStep s e).timers) ∧
      (due ≤ (toastStep s e).now → ∀ x ∈ (toastStep s e).toasts, x.id ≠ i) := by
  obtain ⟨h1, h2, h3⟩ := h
  cases e with
  | «show» random message type duration =>
    refine ⟨h1, ?_, ?_⟩
    · intro hlt
      exact List.mem_append_left _ (h2 hlt)
    · intro hle x hx
      simp only [toastStep, showToast, List.mem_append, List.mem_singleton] at hx
      rcases hx with hx | rfl
      · exact h3 hle x hx
      · have hr : 0 ≤ random := he.1
        have h5 : (t : ℚ) + 300 ≤ (s.now : ℚ) := by
          have : t + 300 ≤ s.now := by
            have : due ≤ s.now := hle
            omega
          exact_mod_cast this
        have hge := toastId_ge s.now random hr
        intro heq
        rw [← heq] at hi
        linarith
  | dismiss id =>
    refine ⟨h1, h2, ?_⟩
    intro hle x hx
    exact h3 hle x ((mem_removeToast _ _ _).mp hx).1
  | advance dt =>
    refine ⟨?_, ?_, ?_⟩
    · show t ≤ s.now + dt
      omega
    · intro hlt
      have hlt' : s.now + dt < due := hlt
      have hmem := h2 (by omega)
      show (⟨due, i⟩ : PendingTimer) ∈ s.timers.filter (fun timer => ¬ timer.due ≤ s.now + dt)
      rw [List.mem_filter]
      exact ⟨hmem, by simpa using hlt'⟩
    · intro hle x hx
      have hle' : due ≤ s.now + dt := hle
      have hx' : x ∈ fireTimers (s.timers.filter (fun timer => timer.due ≤ s.now + dt))
          s.toasts := hx
      obtain ⟨hxq, hxt⟩ := mem_fireTimers _ _ _ hx'
      by_cases hnow : s.now < due
      · have hmem := h2 hnow
        have : (⟨due, i⟩ : PendingTimer) ∈
            s.timers.filter (fun timer => timer.due ≤ s.now + dt) := by
          rw [List.mem_filter]
          exact ⟨hmem, by simpa using hle'⟩
        exact hxt _ this
      · exact h3 (by omega) x hxq

theorem expiry_invariant_run (t due : Int) (i : ℚ) (hi : i ≤ t + 1) (hdue : t + 300 ≤ due)
    (events : List ToastEvent) (hev : ∀ e ∈ events, e.wellFormed) (s : ToastState)
    (h : t ≤ s.now ∧ (s.now < due → (⟨due, i⟩ : PendingTimer) ∈ s.timers) ∧
      (due ≤ s.now → ∀ x ∈ s.toasts, x.id ≠ i)) :
    t ≤ (toastRun s events).now ∧
      ((toastRun s events).now < due → (⟨due, i⟩ : PendingTimer) ∈ (toastRun s events).timers) ∧
      (due ≤ (toastRun s events).now → ∀ x ∈ (toastRun s events).toasts, x.id ≠ i) := by
  induction events generalizing s with
  | nil => exact h
  | cons e es ih =>
    have hstep := expiry_invariant_step t due i hi hdue s e (hev e (List.mem_cons_self _ _)) h
    exact ih (fun e' he' => hev e' (List.mem_cons_of_mem _ he')) (toastStep s e) hstep

/-- C16: the timer that `showToast` schedules has the delay `duration + 300` ms and its
callback leaves no notification with the new identifier; the timer is pending right after the
call, and in every state reached by any further calls of `showToast`, dismissals and passing
of time whose clock has reached `now + duration + 300`, no notification has that
identifier, so the enqueued notification is not in the active list. -/
theorem toast_removed_when_timer_due (s : ToastState) (random : ℚ) (message : String)
    (type : ToastType) (duration : Nat) (events : List ToastEvent)
    (hr : 0 ≤ random ∧ random < 1) (hev : ∀ e ∈ events, e.wellFormed) :
    (showToastTimer s.now random duration).delay = duration + 300 ∧
    (∀ q, ∀ x ∈ (showToastTimer s.now random duration).fire q, x.id ≠ toastId s.now random) ∧
    (⟨s.now + (duration + 300 : Nat), toastId s.now random⟩ : PendingTimer) ∈
      (toastStep s (.show random message type duration)).timers ∧
    (s.now + (duration + 300 : Nat) ≤
        (toastRun (toastStep s (.show random message type duration)) events).now →
      (∀ x ∈ (toastRun (toastStep s (.show random message type duration)) events).toasts,
        x.id ≠ toastId s.now random) ∧
      (⟨toastId s.now random, message, type, duration⟩ : Toast) ∉
        (toastRun (toastStep s (.show random message type duration)) events).toasts) := by
  refine ⟨rfl, ?_, ?_, ?_⟩
  · intro q x hx
    simp only [RemovalTimer.fire, List.mem_filter, decide_eq_true_eq] at hx
    exact hx.2
  · simp [toastStep, showToastTimer]
  · intro hle
    have hi' : toastId s.now random ≤ ((s.now : Int) : ℚ) + 1 := toastId_le s.now random hr.2
    have hinv := expiry_invariant_run s.now (s.now + (duration + 300 : Nat))
      (toastId s.now random) (by exact_mod_cast hi') (by push_cast; omega) events hev
      (toastStep s (.show random message type duration))
      ⟨le_refl _, fun _ => by simp [toastStep, showToastTimer], fun hcontra => by
        have : s.now + ((duration + 300 : Nat) : Int) ≤ s.now := hcontra
        push_cast at this
        omega⟩
    have hall := hinv.2.2 hle
    exact ⟨hall, fun hmem => hall _ hmem rfl⟩

theorem toast_removed_when_timer_due_witness :
    (⟨toastId 1000 (1 / 2), "Saved", .success, 4000⟩ : Toast) ∉
      (toastRun (toastStep ⟨1000, [], []⟩ (.show (1 / 2) "Saved" .success 4000))
        [.show (1 / 4) "Other" .error 6000, .advance 4300]).toasts :=
  ((toast_removed_when_timer_due ⟨1000, [], []⟩ (1 / 2) "Saved" .success 4000
    [.show (1 / 4) "Other" .error 6000, .advance 4300] (by norm_num)
    (by
      intro e he
      simp only [List.mem_cons, List.mem_singleton, List.not_mem_nil, or_false] at he
      rcases he with rfl | rfl
      · exact ⟨by norm_num, by norm_num⟩
      · trivial)).2.2.2
    (by simp [toastRun, toastStep])).2

/-! ### Domain API functions -/

theorem failureResult_of_not_nullish (f : ApiFn) (error : Js) (h : error.isNullish = false) :
    failureResult f error =
      .ok (.failure (Js.or (backendMessage error) (.str f.genericMessage))
        (responseBody error)) := by
  have hopt : ∀ v : Js, ∀ k, v.optProp k = v.get k := by
    intro v k
    cases v <;> simp [Js.optProp, Js.isNullish, Js.get]
  simp only [failureResult, Js.prop, h, hopt, backendMessage, responseBody]
  rfl

theorem typeError_not_nullish : typeError.isNullish = false := rfl

theorem prop_error (v : Js) (k : String) (e : Js) (h : v.prop k = .error e) : e = typeError := by
  unfold Js.prop at h
  split at h
  · cases h; rfl
  · cases h

theorem prop_cases (v : Js) (k : String) :
    v.prop k = .ok (v.get k) ∨ v.prop k = .error typeError := by
  unfold Js.prop
  split
  · exact Or.inr rfl
  · exact Or.inl rfl

theorem successResult_error (f : ApiFn) (response e : Js)
    (h : successResult f response = .error e) : e = typeError := by
  have two : ∀ (g : Js → Js → Js → ApiResult),
      (do
        let backendResponse ← response.prop "data"
        let data ← backendResponse.prop "data"
        let message ← backendResponse.prop "message"
        pure (g backendResponse data message) : Except Js ApiResult) = .error e →
      e = typeError := by
    intro g hg
    rcases prop_cases response "data" with h1 | h1
    · rw [h1] at hg
      rcases prop_cases (response.get "data") "data" with h2 | h2
      · rcases prop_cases (response.get "data") "message" with h3 | h3
        · simp only [bind, Except.bind, h2, h3, pure, Except.pure] at hg
          cases hg
        · simp only [bind, Except.bind, h2, h3] at hg
          cases hg; rfl
      · simp only [bind, Except.bind, h2] at hg
        cases hg; rfl
    · rw [h1] at hg
      simp only [bind, Except.bind] at hg
      cases hg; rfl
  have one : (do
        let data ← response.prop "data"
        pure (ApiResult.success data f.successMessage) : Except Js ApiResult) = .error e →
      e = typeError := by
    intro hg
    rcases prop_cases response "data" with h1 | h1
    · rw [h1] at hg
      simp only [bind, Except.bind, pure, Except.pure] at hg
      cases hg
    · rw [h1] at hg
      simp only [bind, Except.bind] at hg
      cases hg; rfl
  cases f
  case getBookings =>
    exact two (fun _ data message => .success (.obj [("bookings", Js.or data (.arr []))]) message) h
  case searchAvailableVehicles =>
    exact two (fun backendResponse data message =>
      .success (Js.or data backendResponse) message) h
  all_goals exact one h

theorem callApi_of_not_nullish (f : ApiFn) (error : Js) (h : error.isNullish = false) :
    callApi f (.rejected error) =
      .ok (.failure (Js.or (backendMessage error) (.str f.genericMessage))
        (responseBody error)) :=
  failureResult_of_not_nullish f error h

theorem backendMessage_of_nullish (error : Js) (h : error.isNullish = true) :
    responseBody error = .undefined ∧ backendMessage error = .undefined := by
  cases error <;> simp [Js.isNullish] at h <;> exact ⟨rfl, rfl⟩

theorem callApi_intercepted_rejection (f : ApiFn) (error : Js) :
    callApi f (responseInterceptor (.rejected error)) =
      .ok (.failure (Js.or (backendMessage error) (.str f.genericMessage))
        (responseBody error)) := by
  cases hn : error.isNullish with
  | false =>
    simp only [responseInterceptor, hn, Bool.false_eq_true, if_false]
    exact callApi_of_not_nullish f error hn
  | true =>
    obtain ⟨h1, h2⟩ := backendMessage_of_nullish error hn
    simp only [responseInterceptor, hn, if_true]
    rw [callApi_of_not_nullish f typeError typeError_not_nullish, h1, h2]
    rfl

/-- Without the response interceptor, a rejection whose reason is `undefined` makes the
`catch` block throw, and the promise of the domain API function rejects. -/
theorem callApi_rejects_on_undefined_reason (f : ApiFn) :
    callApi f (.rejected .undefined) = .error typeError := rfl

/-- C18: for every domain API function and every outcome of the HTTP call behind
`apiClient` (fulfilled with any value, rejected with any reason), the promise of the function
resolves, with a success result or a failure result; a response whose body is `null` gives
a success with `data: null`, or, where the function reads into the body, the failure result
with the generic message. -/
theorem domain_api_always_resolves (f : ApiFn) (raw : Settled) :
    (∃ result, callApi f (responseInterceptor raw) = .ok result) ∧
    callApi .createBooking (responseInterceptor (.resolved (.obj [("data", .null)]))) =
      .ok (.success .null (.str "Booking created successfully")) ∧
    callApi .getBookings (responseInterceptor (.resolved (.obj [("data", .null)]))) =
      .ok (.failure (.str "Failed to fetch bookings") .undefined) ∧
    callApi .searchAvailableVehicles (responseInterceptor (.resolved .undefined)) =
      .ok (.failure (.str "Failed to search vehicles") .undefined) ∧
    callApi f (responseInterceptor (.rejected .undefined)) =
      .ok (.failure (.str f.genericMessage) .undefined) := by
  refine ⟨?_, rfl, rfl, rfl, by rw [callApi_intercepted_rejection]; rfl⟩
  cases raw with
  | rejected error => exact ⟨_, callApi_intercepted_rejection f error⟩
  | resolved response =>
    show ∃ result, callApi f (.resolved response) = .ok result
    cases hs : successResult f response with
    | ok result => exact ⟨result, by simp only [callApi, hs]⟩
    | error e =>
      have he := successResult_error f response e hs
      subst he
      exact ⟨_, by
        simp only [callApi, hs]
        exact failureResult_of_not_nullish f typeError typeError_not_nullish⟩

/-- C19: for every domain API function and every rejected HTTP call, the failure result has
`details` equal to the body of the response the error carries (`undefined` without one) and
`error` equal to the message of that body when it is a non-empty string (or any truthy
value), and otherwise equal to the generic message of the function, whatever the `message`
of the error itself: a timeout gives the generic message. -/
theorem failure_carries_backend_message (f : ApiFn) (error : Js) :
    (∀ m, backendMessage error = .str m → m ≠ "" →
      callApi f (responseInterceptor (.rejected error)) =
        .ok (.failure (.str m) (responseBody error))) ∧
    ((backendMessage error).truthy = false →
      callApi f (responseInterceptor (.rejected error)) =
        .ok (.failure (.str f.genericMessage) (responseBody error))) ∧
    ((backendMessage error).truthy = true →
      callApi f (responseInterceptor (.rejected error)) =
        .ok (.failure (backendMessage error) (responseBody error))) ∧
    callApi f (responseInterceptor (.rejected
        (.obj [("message", .str "timeout of 10000ms exceeded"), ("code", .str "ECONNABORTED")])))
      = .ok (.failure (.str f.genericMessage) .undefined) := by
  have key := callApi_intercepted_rejection f error
  refine ⟨?_, ?_, ?_, ?_⟩
  · intro m hm hne
    rw [key, hm]
    simp [Js.or, Js.truthy, hne]
  · intro hf
    rw [key]
    simp [Js.or, hf]
  · intro ht
    rw [key]
    simp [Js.or, ht]
  · rw [callApi_intercepted_rejection]
    rfl

theorem failure_carries_backend_message_witness :
    callApi .createBooking (responseInterceptor (.rejected
      (.obj [("message", .str "Request failed with status code 409"),
        ("response", .obj [("status", .num 409),
          ("data", .obj [("success", .bool false),
            ("message", .str "Vehicle is not available")])])]))) =
      .ok (.failure (.str "Vehicle is not available")
        (.obj [("success", .bool false), ("message", .str "Vehicle is not available")])) :=
  (failure_carries_backend_message .createBooking
    (.obj [("message", .str "Request failed with status code 409"),
      ("response", .obj [("status", .num 409),
        ("data", .obj [("success", .bool false),
          ("message", .str "Vehicle is not available")])])])).1
    "Vehicle is not available" rfl (by decide)

/-! ### Fetching the bookings -/

theorem mem_insertBooking (a c : Booking) (l : List Booking) :
    c ∈ insertBooking a l ↔ c = a ∨ c ∈ l := by
  induction l with
  | nil => simp [insertBooking]
  | cons b l ih =>
    unfold insertBooking
    split
    · simp
    · simp only [List.mem_cons, ih]
      tauto

theorem perm_insertBooking (a : Booking) (l : List Booking) :
    (insertBooking a l).Perm (a :: l) := by
  induction l with
  | nil => exact List.Perm.refl _
  | cons b l ih =>
    unfold insertBooking
    split
    · exact List.Perm.refl _
    · exact ((List.Perm.cons b ih).trans (List.Perm.swap a b l))

theorem perm_sortBookings (l : List Booking) : (sortBookings l).Perm l := by
  induction l with
  | nil => exact List.Perm.refl _
  | cons a l ih =>
    exact (perm_insertBooking a (sortBookings l)).trans (List.Perm.cons a ih)

theorem keepsBefore_iff (a b : Booking) (ta tb : Int) (ha : a.createdAt = some ta)
    (hb : b.createdAt = some tb) : keepsBefore a b = true ↔ tb ≤ ta := by
  simp only [keepsBefore, compareCreatedAt, ha, hb, decide_eq_true_eq]
  omega

theorem pairwise_insertBooking (a : Booking) (l : List Booking)
    (hv : ∀ b ∈ a :: l, b.createdAt.isSome = true) (hl : l.Pairwise CreatedNoEarlier) :
    (insertBooking a l).Pairwise CreatedNoEarlier := by
  obtain ⟨ta, hta⟩ := Option.isSome_iff_exists.mp (hv a (List.mem_cons_self _ _))
  induction l with
  | nil => simp [insertBooking]
  | cons b l ih =>
    obtain ⟨tb, htb⟩ := Option.isSome_iff_exists.mp
      (hv b (List.mem_cons_of_mem _ (List.mem_cons_self _ _)))
    have hb : ∀ c ∈ l, CreatedNoEarlier b c := (List.pairwise_cons.mp hl).1
    have hl' : l.Pairwise CreatedNoEarlier := (List.pairwise_cons.mp hl).2
    unfold insertBooking
    split
    · rename_i hk
      have hab : tb ≤ ta := (keepsBefore_iff a b ta tb hta htb).mp hk
      refine List.pairwise_cons.mpr ⟨?_, hl⟩
      intro c hc
      rcases List.mem_cons.mp hc with rfl | hc
      · exact ⟨ta, tb, hta, htb, hab⟩
      · obtain ⟨tb', tc, h1, h2, h3⟩ := hb c hc
        rw [htb] at h1
        cases h1
        exact ⟨ta, tc, hta, h2, by omega⟩
    · rename_i hk
      have hab : ¬ tb ≤ ta := fun h => hk ((keepsBefore_iff a b ta tb hta htb).mpr h)
      refine List.pairwise_cons.mpr ⟨?_, ?_⟩
      · intro c hc
        rcases (mem_insertBooking a c l).mp hc with rfl | hc
        · exact ⟨tb, ta, htb, hta, by omega⟩
        · exact hb c hc
      · exact ih (fun c hc => by
          rcases List.mem_cons.mp hc with rfl | hc
          · exact hv _ (List.mem_cons_self _ _)
          · exact hv c (List.mem_cons_of_mem _ (List.mem_cons_of_mem _ hc))) hl'

theorem pairwise_sortBookings (l : List Booking) (hv : ∀ b ∈ l, b.createdAt.isSome = true) :
    (sortBookings l).Pairwise CreatedNoEarlier := by
  induction l with
  | nil => exact List.Pairwise.nil
  | cons a l ih =>
    have ih' := ih (fun b hb => hv b (List.mem_cons_of_mem _ hb))
    refine pairwise_insertBooking a (sortBookings l) ?_ ih'
    intro b hb
    rcases List.mem_cons.mp hb with rfl | hb
    · exact hv _ (List.mem_cons_self _ _)
    · exact hv b (List.mem_cons_of_mem _ ((perm_sortBookings l).mem_iff.mp hb))

/-- C20: after a successful fetch, `fetchBookings` stores the empty list when the bookings
payload is not an array; when it is an array whose records all have a valid `createdAt`, it
stores a permutation of the array in which every booking was created no earlier than each
booking after it (in particular than the next one), and it shows no notification. -/
theorem fetchBookings_sorted_permutation (m : Option String) (s : BookingsPage)
    (l : List Booking) (hv : ∀ b ∈ l, b.createdAt.isSome = true) :
    (fetchBookings (.ok .notArray m) s).1.bookings = [] ∧
    (fetchBookings (.ok (.array l) m) s).1.bookings.Perm l ∧
    (fetchBookings (.ok (.array l) m) s).1.bookings.Pairwise CreatedNoEarlier ∧
    (fetchBookings (.ok (.array l) m) s).1.bookings.Chain' CreatedNoEarlier ∧
    (fetchBookings (.ok (.array l) m) s).2 = [] := by
  have hb : (fetchBookings (.ok (.array l) m) s).1.bookings = sortBookings l := by
    cases l with
    | nil => rfl
    | cons a l => simp [fetchBookings]
  rw [hb]
  exact ⟨rfl, perm_sortBookings l, pairwise_sortBookings l hv,
    List.Pairwise.chain' (pairwise_sortBookings l hv), rfl⟩

theorem fetchBookings_sorted_permutation_witness :
    (fetchBookings
      (.ok (.array [⟨.str "b1", .undefined, "pending", some 500, some 100⟩,
        ⟨.str "b2", .undefined, "completed", some 600, some 300⟩,
        ⟨.str "b3", .undefined, "confirmed", some 700, some 200⟩]) none)
      { bookings := [], loading := true }).1.bookings =
      [⟨.str "b2", .undefined, "completed", some 600, some 300⟩,
        ⟨.str "b3", .undefined, "confirmed", some 700, some 200⟩,
        ⟨.str "b1", .undefined, "pending", some 500, some 100⟩] ∧
    (fetchBookings
      (.ok (.array [⟨.str "b1", .undefined, "pending", some 500, some 100⟩,
        ⟨.str "b2", .undefined, "completed", some 600, some 300⟩,
        ⟨.str "b3", .undefined, "confirmed", some 700, some 200⟩]) none)
      { bookings := [], loading := true }).1.bookings.Perm
      [⟨.str "b1", .undefined, "pending", some 500, some 100⟩,
        ⟨.str "b2", .undefined, "completed", some 600, some 300⟩,
        ⟨.str "b3", .undefined, "confirmed", some 700, some 200⟩] :=
  ⟨by decide,
    (fetchBookings_sorted_permutation none { bookings := [], loading := true }
      [⟨.str "b1", .undefined, "pending", some 500, some 100⟩,
        ⟨.str "b2", .undefined, "completed", some 600, some 300⟩,
        ⟨.str "b3", .undefined, "confirmed", some 700, some 200⟩] (by decide)).2.1⟩

/-! ### Actions on a booking -/

theorem lookup_filter_ne (k k' : String) (m : List (String × String)) (h : k ≠ k') :
    (m.filter (fun entry => entry.1 ≠ k)).lookup k' = m.lookup k' := by
  induction m with
  | nil => rfl
  | cons e m ih =>
    obtain ⟨a, v⟩ := e
    by_cases ha : a = k
    · subst ha
      have hne : (k' == a) = false := by
        rw [beq_eq_false_iff_ne]; exact fun h' => h h'.symm
      simp only [List.filter_cons, ne_eq, not_true_eq_false, decide_False, Bool.false_eq_true,
        if_false, ih, List.lookup_cons, hne]
    · have hd : decide (a ≠ k) = true := by simpa using ha
      simp only [List.filter_cons, hd, if_true, List.lookup_cons, ih]

theorem actionTag_beginAction_ne (a b : JsVal) (tag : String) (s : BookingsPage)
    (h : propertyKey a ≠ propertyKey b) : actionTag (beginAction a tag s) b = actionTag s b := by
  have hne : (propertyKey b == propertyKey a) = false := by
    rw [beq_eq_false_iff_ne]; exact fun h' => h h'.symm
  simp only [actionTag, beginAction, List.lookup_cons, hne]
  exact lookup_filter_ne _ _ _ h

theorem actionTag_endAction_ne (a b : JsVal) (s : BookingsPage)
    (h : propertyKey a ≠ propertyKey b) : actionTag (endAction a s) b = actionTag s b :=
  lookup_filter_ne _ _ _ h

theorem length_patchStatus (bookingId : JsVal) (status : String) (l : List Booking) :
    (patchStatus bookingId status l).length = l.length := by
  simp [patchStatus]

theorem getElem?_patchStatus (bookingId : JsVal) (status : String) (l : List Booking) (i : Nat) :
    (patchStatus bookingId status l)[i]? =
      (l[i]?).map (fun b => if b.key = bookingId then { b with status := status } else b) := by
  simp only [patchStatus, List.getElem?_map, Booking.key]

/-- C21: when `cancelBooking` (resp. `updateBookingStatus`) returns success, the list has
the same length, at every position the booking is the previous one, with its status set to
`cancelled` (resp. `newStatus`) and its other fields kept when its identifier equals the
id, and unchanged otherwise; the only request of the run is the cancel (resp. update)
request, so the list is not fetched again. -/
theorem status_patched_in_place (d : Unit) (m : Option String) (bookingId : JsVal)
    (newStatus : String) (s : BookingsPage) :
    ((handleCancelBooking true (.ok d m) bookingId s).1.bookings.length = s.bookings.length ∧
      (∀ i : Nat, (handleCancelBooking true (.ok d m) bookingId s).1.bookings[i]? =
        (s.bookings[i]?).map
          (fun b : Booking =>
            if b.key = bookingId then { b with status := "cancelled" } else b)) ∧
      (handleCancelBooking true (.ok d m) bookingId s).2.requests =
        [.cancelBooking bookingId]) ∧
    ((handleUpdateStatus (.ok d m) bookingId newStatus s).1.bookings.length =
        s.bookings.length ∧
      (∀ i : Nat, (handleUpdateStatus (.ok d m) bookingId newStatus s).1.bookings[i]? =
        (s.bookings[i]?).map
          (fun b : Booking =>
            if b.key = bookingId then { b with status := newStatus } else b)) ∧
      (handleUpdateStatus (.ok d m) bookingId newStatus s).2.requests =
        [.updateBookingStatus bookingId newStatus]) := by
  have h1 : (handleCancelBooking true (.ok d m) bookingId s).1.bookings =
      patchStatus bookingId "cancelled" s.bookings := rfl
  have h2 : (handleUpdateStatus (.ok d m) bookingId newStatus s).1.bookings =
      patchStatus bookingId newStatus s.bookings := rfl
  rw [h1, h2]
  exact ⟨⟨length_patchStatus _ _ _, getElem?_patchStatus _ _ _, rfl⟩,
    ⟨length_patchStatus _ _ _, getElem?_patchStatus _ _ _, rfl⟩⟩

/-- C22: when `deleteBooking` returns success, the list is the previous list without the
bookings whose identifier equals the id: a booking is in it exactly when it was in the
previous list with another identifier, and the order is that of the previous list. -/
theorem deleted_booking_removed (d : Unit) (m : Option String) (bookingId : JsVal)
    (s : BookingsPage) :
    (handleDeleteBooking true (.ok d m) bookingId s).1.bookings =
      s.bookings.filter (fun b => decide (b.key ≠ bookingId)) ∧
    (∀ b, b ∈ (handleDeleteBooking true (.ok d m) bookingId s).1.bookings ↔
      b ∈ s.bookings ∧ b.key ≠ bookingId) ∧
    ((handleDeleteBooking true (.ok d m) bookingId s).1.bookings).Sublist s.bookings := by
  have h : (handleDeleteBooking true (.ok d m) bookingId s).1.bookings =
      s.bookings.filter (fun b => decide (b.key ≠ bookingId)) := rfl
  rw [h]
  refine ⟨rfl, ?_, List.filter_sublist _⟩
  intro b
  simp [List.mem_filter]

/-- C23: when the request of `handleCancelBooking`, `handleUpdateStatus` or
`handleDeleteBooking` returns a failure result or throws, the list of bookings is the one
before the action; when the confirmation of a cancellation or a deletion is declined, the
handler changes nothing and has no effect; and starting an action, before the request has
settled, leaves the list unchanged. -/
theorem bookings_kept_without_success (error : Option String) (o : ApiOutcome Unit)
    (bookingId : JsVal) (newStatus tag : String) (s : BookingsPage) :
    ((handleCancelBooking true (.fail error) bookingId s).1.bookings = s.bookings ∧
      (handleCancelBooking true .thrown bookingId s).1.bookings = s.bookings ∧
      handleCancelBooking false o bookingId s = (s, {})) ∧
    ((handleUpdateStatus (.fail error) bookingId newStatus s).1.bookings = s.bookings ∧
      (handleUpdateStatus .thrown bookingId newStatus s).1.bookings = s.bookings) ∧
    ((handleDeleteBooking true (.fail error) bookingId s).1.bookings = s.bookings ∧
      (handleDeleteBooking true .thrown bookingId s).1.bookings = s.bookings ∧
      handleDeleteBooking false o bookingId s = (s, {})) ∧
    (beginAction bookingId tag s).bookings = s.bookings :=
  ⟨⟨rfl, rfl, rfl⟩, ⟨rfl, rfl⟩, ⟨rfl, rfl, rfl⟩, rfl⟩

/-- C24: at every clock reading, the button that sets `in_progress` is rendered only for a
pending or confirmed booking, the button that sets `completed` only for a booking in
progress, the cancellation only for a pending or confirmed booking that starts more than
3600000 ms after `now`; for a completed or cancelled booking no rendered button changes the
status, and the only statuses a button sets are `in_progress`, `completed`, `cancelled`. -/
theorem offered_actions_on_forward_path (now : Int) (b : Booking) :
    (.update "in_progress" ∈ offeredActions now b →
      b.status = "pending" ∨ b.status = "confirmed") ∧
    (.update "completed" ∈ offeredActions now b → b.status = "in_progress") ∧
    (.cancel ∈ offeredActions now b →
      (b.status = "pending" ∨ b.status = "confirmed") ∧
        ∃ t, b.startTime = some t ∧ now + 3600000 < t) ∧
    (b.status = "completed" ∨ b.status = "cancelled" →
      ∀ a ∈ offeredActions now b, a.newStatus = none) ∧
    (∀ a ∈ offeredActions now b, ∀ st, a.newStatus = some st →
      st = "in_progress" ∨ st = "completed" ∨ st = "cancelled") := by
  have hc : canCancelBooking now b = true →
      (b.status = "pending" ∨ b.status = "confirmed") ∧
        ∃ t, b.startTime = some t ∧ now + 3600000 < t := by
    intro h
    cases hs : b.startTime <;> simp_all [canCancelBooking, dateGt]
  have hmem : ∀ a, a ∈ offeredActions now b ↔
      (a = .cancel ∧ canCancelBooking now b = true) ∨
      (a = .update "in_progress" ∧ b.status = "confirmed") ∨
      (a = .update "completed" ∧ b.status = "in_progress") ∨
      (a = .delete ∧ canDeleteBooking b = true) := by
    intro a
    simp only [offeredActions, List.mem_append]
    constructor
    · rintro (((h | h) | h) | h)
      · split at h
        · simp at h; exact Or.inl ⟨h, ‹_›⟩
        · simp at h
      · split at h
        · simp at h; exact Or.inr (Or.inl ⟨h, ‹_›⟩)
        · simp at h
      · split at h
        · simp at h; exact Or.inr (Or.inr (Or.inl ⟨h, ‹_›⟩))
        · simp at h
      · split at h
        · simp at h; exact Or.inr (Or.inr (Or.inr ⟨h, ‹_›⟩))
        · simp at h
    · rintro (⟨rfl, h⟩ | ⟨rfl, h⟩ | ⟨rfl, h⟩ | ⟨rfl, h⟩)
      · exact Or.inl (Or.inl (Or.inl (by simp [h])))
      · exact Or.inl (Or.inl (Or.inr (by simp [h])))
      · exact Or.inl (Or.inr (by simp [h]))
      · exact Or.inr (by simp [h])
  refine ⟨?_, ?_, ?_, ?_, ?_⟩
  · intro h
    rcases (hmem _).mp h with ⟨h1, -⟩ | ⟨-, h2⟩ | ⟨h1, -⟩ | ⟨h1, -⟩
    · cases h1
    · exact Or.inr h2
    · simp at h1
    · cases h1
  · intro h
    rcases (hmem _).mp h with ⟨h1, -⟩ | ⟨h1, -⟩ | ⟨-, h2⟩ | ⟨h1, -⟩
    · cases h1
    · simp at h1
    · exact h2
    · cases h1
  · intro h
    rcases (hmem _).mp h with ⟨-, h2⟩ | ⟨h1, -⟩ | ⟨h1, -⟩ | ⟨h1, -⟩
    · exact hc h2
    · cases h1
    · cases h1
    · cases h1
  · intro hst a ha
    rcases (hmem _).mp ha with ⟨-, h2⟩ | ⟨-, h2⟩ | ⟨-, h2⟩ | ⟨rfl, -⟩
    · have := (hc h2).1
      rcases hst with h | h <;> rw [h] at this <;> simp at this
    · rcases hst with h | h <;> rw [h] at h2 <;> simp at h2
    · rcases hst with h | h <;> rw [h] at h2 <;> simp at h2
    · rfl
  · intro a ha st hst
    rcases (hmem _).mp ha with ⟨rfl, -⟩ | ⟨rfl, -⟩ | ⟨rfl, -⟩ | ⟨rfl, -⟩
    · simp [BookingAction.newStatus] at hst; exact Or.inr (Or.inr hst.symm)
    · simp [BookingAction.newStatus] at hst; exact Or.inl hst.symm
    · simp [BookingAction.newStatus] at hst; exact Or.inr (Or.inl hst.symm)
    · simp [BookingAction.newStatus] at hst

theorem offered_actions_on_forward_path_witness :
    ((⟨.str "b1", .undefined, "confirmed", some 10000000, some 0⟩ : Booking).status = "pending" ∨
      (⟨.str "b1", .undefined, "confirmed", some 10000000, some 0⟩ : Booking).status
        = "confirmed") ∧
    ∀ a ∈ offeredActions 0 ⟨.str "b2", .undefined, "completed", some 10000000, some 0⟩,
      a.newStatus = none :=
  ⟨(offered_actions_on_forward_path 0
      ⟨.str "b1", .undefined, "confirmed", some 10000000, some 0⟩).1 (by decide),
    (offered_actions_on_forward_path 0
      ⟨.str "b2", .undefined, "completed", some 10000000, some 0⟩).2.2.2.1 (Or.inl rfl)⟩

/-- C25: `filteredBookings` is the list of bookings filtered, in order, by "the filter is
`all` or the status equals the filter": the whole list for `all`, exactly the bookings with
that status for the five status filters; `setFilter` changes the filter only, leaves the
list of bookings unchanged and issues no request. -/
theorem filteredBookings_by_status (value : String) (s : BookingsPage) :
    filteredBookings s =
      s.bookings.filter (fun b => decide (s.filter = "all" ∨ b.status = s.filter)) ∧
    (filteredBookings s).Sublist s.bookings ∧
    (s.filter = "all" → filteredBookings s = s.bookings) ∧
    (s.filter ∈ ["pending", "confirmed", "in_progress", "completed", "cancelled"] →
      ∀ b, b ∈ filteredBookings s ↔ b ∈ s.bookings ∧ b.status = s.filter) ∧
    ((setFilter value s).1.bookings = s.bookings ∧ (setFilter value s).1.filter = value ∧
      (setFilter value s).2 = {}) := by
  have hf : filteredBookings s =
      s.bookings.filter (fun b => decide (s.filter = "all" ∨ b.status = s.filter)) := by
    unfold filteredBookings
    congr 1
    funext b
    by_cases h : s.filter = "all" <;> simp [h]
  refine ⟨hf, ?_, ?_, ?_, ⟨rfl, rfl, rfl⟩⟩
  · rw [hf]; exact List.filter_sublist _
  · intro h
    rw [hf, List.filter_eq_self]
    intro b _
    simp [h]
  · intro h b
    have hne : s.filter ≠ "all" := by
      intro h'
      rw [h'] at h
      revert h
      decide
    rw [hf, List.mem_filter]
    simp [hne]

theorem filteredBookings_by_status_witness :
    filteredBookings
      { bookings := [⟨.str "b1", .undefined, "pending", some 500, some 100⟩,
          ⟨.str "b2", .undefined, "completed", some 600, some 300⟩]
        loading := false } =
      [⟨.str "b1", .undefined, "pending", some 500, some 100⟩,
        ⟨.str "b2", .undefined, "completed", some 600, some 300⟩] :=
  (filteredBookings_by_status "pending"
    { bookings := [⟨.str "b1", .undefined, "pending", some 500, some 100⟩,
        ⟨.str "b2", .undefined, "completed", some 600, some 300⟩]
      loading := false }).2.2.1 rfl

/-- C26: for two booking ids with distinct property keys (for string ids: two distinct
ids), setting the entry of `a`, deleting the entry of `a`, and a whole run of
`handleCancelBooking`, `handleUpdateStatus` or `handleDeleteBooking` on `a` leave the value
of `actionLoading[b]` unchanged. -/
theorem action_loading_isolated (a b : JsVal) (tag newStatus : String) (confirmed : Bool)
    (o : ApiOutcome Unit) (s : BookingsPage) (hab : propertyKey a ≠ propertyKey b) :
    actionTag (beginAction a tag s) b = actionTag s b ∧
    actionTag (endAction a s) b = actionTag s b ∧
    actionTag (handleCancelBooking confirmed o a s).1 b = actionTag s b ∧
    actionTag (handleUpdateStatus o a newStatus s).1 b = actionTag s b ∧
    actionTag (handleDeleteBooking confirmed o a s).1 b = actionTag s b := by
  have hb := fun t s' => actionTag_beginAction_ne a b t s' hab
  have he := fun s' => actionTag_endAction_ne a b s' hab
  have hbk : ∀ (s' : BookingsPage) (l : List Booking),
      actionTag { s' with bookings := l } b = actionTag s' b := fun _ _ => rfl
  refine ⟨hb tag s, he s, ?_, ?_, ?_⟩
  · cases confirmed
    · rfl
    · cases o with
      | ok d m =>
        show actionTag (endAction a { beginAction a "cancelling" s with
          bookings := patchStatus a "cancelled" (beginAction a "cancelling" s).bookings }) b = _
        rw [he, hbk, hb]
      | fail e =>
        show actionTag (endAction a (beginAction a "cancelling" s)) b = _
        rw [he, hb]
      | thrown =>
        show actionTag (endAction a (beginAction a "cancelling" s)) b = _
        rw [he, hb]
  · cases o with
    | ok d m =>
      show actionTag (endAction a { beginAction a "updating" s with
        bookings := patchStatus a newStatus (beginAction a "updating" s).bookings }) b = _
      rw [he, hbk, hb]
    | fail e =>
      show actionTag (endAction a (beginAction a "updating" s)) b = _
      rw [he, hb]
    | thrown =>
      show actionTag (endAction a (beginAction a "updating" s)) b = _
      rw [he, hb]
  · cases confirmed
    · rfl
    · cases o with
      | ok d m =>
        show actionTag (endAction a { beginAction a "deleting" s with
          bookings := (beginAction a "deleting" s).bookings.filter
            (fun booking => jsOr booking._id booking.id ≠ a) }) b = _
        rw [he, hbk, hb]
      | fail e =>
        show actionTag (endAction a (beginAction a "deleting" s)) b = _
        rw [he, hb]
      | thrown =>
        show actionTag (endAction a (beginAction a "deleting" s)) b = _
        rw [he, hb]

theorem action_loading_isolated_witness :
    actionTag (beginAction (.str "b1") "cancelling"
      { bookings := [], loading := false, actionLoading := [("b2", "updating")] }) (.str "b2")
      = some "updating" :=
  (action_loading_isolated (.str "b1") (.str "b2") "cancelling" "completed" true .thrown
    { bookings := [], loading := false, actionLoading := [("b2", "updating")] }
    (by decide)).1.trans (by decide)

/-- C27 (failing input): on a confirmed booking that starts in more than an hour, pressing
Start Journey and then, before it settles, Cancel Booking leaves the update pending while
`actionLoading` holds `cancelling`; when the update then settles, the cancellation is still
pending and `actionLoading` has no entry for the booking. -/
theorem pending_update_shown_as_cancelling :
    (⟨.str "b1", .update "in_progress"⟩ : PendingAction) ∈
      (bookingsRun
        ⟨{ bookings := [⟨.str "b1", .undefined, "confirmed", some 10000000, some 0⟩]
           loading := false }, []⟩
        [.press 0 0 (.update "in_progress") true, .press 0 0 .cancel true]).pending ∧
    actionTag
      (bookingsRun
        ⟨{ bookings := [⟨.str "b1", .undefined, "confirmed", some 10000000, some 0⟩]
           loading := false }, []⟩
        [.press 0 0 (.update "in_progress") true, .press 0 0 .cancel true]).page (.str "b1")
      = some "cancelling" ∧
    (⟨.str "b1", .cancel⟩ : PendingAction) ∈
      (bookingsRun
        ⟨{ bookings := [⟨.str "b1", .undefined, "confirmed", some 10000000, some 0⟩]
           loading := false }, []⟩
        [.press 0 0 (.update "in_progress") true, .press 0 0 .cancel true,
          .settle 0 (.fail none)]).pending ∧
    actionTag
      (bookingsRun
        ⟨{ bookings := [⟨.str "b1", .undefined, "confirmed", some 10000000, some 0⟩]
           loading := false }, []⟩
        [.press 0 0 (.update "in_progress") true, .press 0 0 .cancel true,
          .settle 0 (.fail none)]).page (.str "b1")
      = none := by
  decide

/-- C28: for a form that passes `validateForm`, after a success of `addVehicle` the form
holds the default values (empty fields, vehicle type `truck`) and one success notification
is shown; after a failure result or an exception every field keeps its value and one error
notification is shown. -/
theorem handleSubmit_resets_or_keeps (d : Unit) (m error : Option String) (s : VehiclePage)
    (hv : (validateForm s.formData).2 = true) :
    ((handleSubmit (.ok d m) s).1.formData =
        { name := "", capacityKg := "", tyres := "", vehicleType := "truck",
          registrationNumber := "" } ∧
      ∃ message, (handleSubmit (.ok d m) s).2.toasts = [⟨.success, message, 4000⟩]) ∧
    ((handleSubmit (.fail error) s).1.formData = s.formData ∧
      OneErrorToast (handleSubmit (.fail error) s).2.toasts) ∧
    ((handleSubmit .thrown s).1.formData = s.formData ∧
      OneErrorToast (handleSubmit .thrown s).2.toasts) := by
  refine ⟨⟨?_, ?_⟩, ⟨?_, ?_⟩, ⟨?_, ?_⟩⟩
  · simp [handleSubmit, hv, defaultVehicleForm]
  · exact ⟨strOr m "Vehicle added successfully!", by simp [handleSubmit, hv, showSuccess]⟩
  · simp [handleSubmit, hv]
  · exact ⟨strOr error "Failed to add vehicle", by simp [handleSubmit, hv, showError]⟩
  · simp [handleSubmit, hv]
  · exact ⟨"An unexpected error occurred. Please try again.",
      by simp [handleSubmit, hv, showError]⟩

theorem handleSubmit_resets_or_keeps_witness :
    (handleSubmit (.fail (some "Duplicate vehicle"))
      ⟨⟨"Tata Ace", "1000", "4", "van", ""⟩, {}, false⟩).1.formData =
      ⟨"Tata Ace", "1000", "4", "van", ""⟩ :=
  (handleSubmit_resets_or_keeps () none (some "Duplicate vehicle")
    ⟨⟨"Tata Ace", "1000", "4", "van", ""⟩, {}, false⟩ (by decide)).2.1.1

/-- C30: for a form that passes validation, the result list is empty while the availability
query is in flight, and when the query returns a failure result or throws, the state after
`handleSearch` is that state with `searching` false again: the result list is empty,
whatever it was before. -/
theorem handleSearch_failure_empties_results (now : Int)
    (o : ApiOutcome (Option (List Vehicle))) (s : SearchPage)
    (hv : (validateSearchForm now s.searchForm).2 = true) (ho : o.failed = true) :
    (searchInFlight now s).searchResults = [] ∧
    (handleSearch now o s).1 = { searchInFlight now s with searching := false } ∧
    (handleSearch now o s).1.searchResults = [] ∧
    (handleSearch now o s).1.searching = false := by
  obtain ⟨t, ht, -⟩ := startDateTime_of_valid now s.searchForm hv
  have h : (handleSearch now o s).1 = { searchInFlight now s with searching := false } := by
    cases o with
    | ok d m => cases ho
    | fail e => simp [handleSearch, hv, ht, searchInFlight]
    | thrown => simp [handleSearch, hv, ht, searchInFlight]
  rw [h]
  exact ⟨rfl, rfl, rfl, rfl⟩

theorem handleSearch_failure_empties_results_witness :
    (handleSearch 0 (.fail (some "Server error"))
      ⟨⟨"500", "400001", "400002", some 600000⟩,
        [⟨.str "v1", .undefined, "Tata Ace", "truck", 1000, 4⟩], {}, false, false⟩).1.searchResults
      = [] :=
  (handleSearch_failure_empties_results 0 (.fail (some "Server error"))
    ⟨⟨"500", "400001", "400002", some 600000⟩,
      [⟨.str "v1", .undefined, "Tata Ace", "truck", 1000, 4⟩], {}, false, false⟩
    (by decide) rfl).2.2.1

/-! ### Failures and notifications -/

theorem search_errors_of_invalid (now : Int) (f : SearchForm)
    (h : (validateSearchForm now f).2 = false) : (validateSearchForm now f).1 ≠ {} := by
  intro he
  have : (validateSearchForm now f).2 = true := by
    show (validateSearchForm now f).1.noKeys = true
    rw [he]; rfl
  rw [h] at this
  cases this

theorem vehicle_errors_of_invalid (f : VehicleForm)
    (h : (validateForm f).2 = false) : (validateForm f).1 ≠ {} := by
  intro he
  have : (validateForm f).2 = true := by
    show (validateForm f).1.noKeys = true
    rw [he]; rfl
  rw [h] at this
  cases this

/-- C29 (as amended): in every handler (`handleSearch`, `handleBookVehicle`, `handleSubmit`,
`fetchBookings`, `handleCancelBooking`, `handleUpdateStatus`, `handleDeleteBooking`), a run
whose request returns a failure result or throws shows exactly one error notification and
issues at most one request; a run stopped by a validation error shows no notification and
issues no request, and stores the field errors instead. -/
theorem one_error_notification_per_failed_request (now : Int) (env : Option String)
    (vehicle : Vehicle) (bookingId : JsVal) (newStatus : String)
    (sp : SearchPage) (vp : VehiclePage) (bp : BookingsPage)
    (o1 : ApiOutcome (Option (List Vehicle))) (o2 : ApiOutcome Unit)
    (o3 : ApiOutcome BookingsPayload)
    (h1 : o1.failed = true) (h2 : o2.failed = true) (h3 : o3.failed = true) :
    ((validateSearchForm now sp.searchForm).2 = true →
      OneErrorToast (handleSearch now o1 sp).2.toasts ∧
      (handleSearch now o1 sp).2.searchRequests.length = 1) ∧
    ((validateSearchForm now sp.searchForm).2 = false →
      (handleSearch now o1 sp).2 = {} ∧ (handleSearch now o1 sp).1.searchErrors ≠ {}) ∧
    (OneErrorToast (handleBookVehicle env o2 vehicle sp).2.toasts ∧
      (handleBookVehicle env o2 vehicle sp).2.bookingRequests.length ≤ 1) ∧
    ((validateForm vp.formData).2 = true →
      OneErrorToast (handleSubmit o2 vp).2.toasts ∧
      (handleSubmit o2 vp).2.requests.length = 1) ∧
    ((validateForm vp.formData).2 = false →
      (handleSubmit o2 vp).2 = {} ∧ (handleSubmit o2 vp).1.errors ≠ {}) ∧
    (OneErrorToast (fetchBookingsEffects o3 bp).toasts ∧
      (fetchBookingsEffects o3 bp).requests.length = 1) ∧
    (OneErrorToast (handleCancelBooking true o2 bookingId bp).2.toasts ∧
      (handleCancelBooking true o2 bookingId bp).2.requests.length = 1) ∧
    (OneErrorToast (handleUpdateStatus o2 bookingId newStatus bp).2.toasts ∧
      (handleUpdateStatus o2 bookingId newStatus bp).2.requests.length = 1) ∧
    (OneErrorToast (handleDeleteBooking true o2 bookingId bp).2.toasts ∧
      (handleDeleteBooking true o2 bookingId bp).2.requests.length = 1) := by
  refine ⟨?_, ?_, ?_, ?_, ?_, ?_, ?_, ?_, ?_⟩
  · intro hv
    obtain ⟨t, ht, -⟩ := startDateTime_of_valid now sp.searchForm hv
    cases o1 with
    | ok d m => cases h1
    | fail e =>
      exact ⟨⟨strOr e "Failed to search vehicles", by simp [handleSearch, hv, ht, showError]⟩,
        by simp [handleSearch, hv, ht]⟩
    | thrown =>
      exact ⟨⟨"An unexpected error occurred while searching. Please try again.",
        by simp [handleSearch, hv, ht, showError]⟩, by simp [handleSearch, hv, ht]⟩
  · intro hv
    refine ⟨by simp [handleSearch, hv], ?_⟩
    have : (handleSearch now o1 sp).1.searchErrors = (validateSearchForm now sp.searchForm).1 := by
      simp [handleSearch, hv]
    rw [this]
    exact search_errors_of_invalid now _ hv
  · cases hb : bookingDataOf env sp.searchForm vehicle with
    | none =>
      exact ⟨⟨"An unexpected error occurred while booking. Please try again.",
        by simp [handleBookVehicle, hb, showError]⟩, by simp [handleBookVehicle, hb]⟩
    | some bd =>
      cases o2 with
      | ok d m => cases h2
      | fail e =>
        exact ⟨⟨strOr e "Failed to book vehicle. It may no longer be available.",
          by simp [handleBookVehicle, hb, showError]⟩, by simp [handleBookVehicle, hb]⟩
      | thrown =>
        exact ⟨⟨"An unexpected error occurred while booking. Please try again.",
          by simp [handleBookVehicle, hb, showError]⟩, by simp [handleBookVehicle, hb]⟩
  · intro hv
    cases o2 with
    | ok d m => cases h2
    | fail e =>
      exact ⟨⟨strOr e "Failed to add vehicle", by simp [handleSubmit, hv, showError]⟩,
        by simp [handleSubmit, hv]⟩
    | thrown =>
      exact ⟨⟨"An unexpected error occurred. Please try again.",
        by simp [handleSubmit, hv, showError]⟩, by simp [handleSubmit, hv]⟩
  · intro hv
    refine ⟨by simp [handleSubmit, hv], ?_⟩
    have : (handleSubmit o2 vp).1.errors = (validateForm vp.formData).1 := by
      simp [handleSubmit, hv]
    rw [this]
    exact vehicle_errors_of_invalid _ hv
  · cases o3 with
    | ok d m => cases h3
    | fail e => exact ⟨⟨strOr e "Failed to fetch bookings", rfl⟩, rfl⟩
    | thrown => exact ⟨⟨"An unexpected error occurred while fetching bookings.", rfl⟩, rfl⟩
  · cases o2 with
    | ok d m => cases h2
    | fail e => exact ⟨⟨strOr e "Failed to cancel booking", rfl⟩, rfl⟩
    | thrown =>
      exact ⟨⟨"An unexpected error occurred while cancelling the booking.", rfl⟩, rfl⟩
  · cases o2 with
    | ok d m => cases h2
    | fail e => exact ⟨⟨strOr e "Failed to update booking status", rfl⟩, rfl⟩
    | thrown =>
      exact ⟨⟨"An unexpected error occurred while updating the booking status.", rfl⟩, rfl⟩
  · cases o2 with
    | ok d m => cases h2
    | fail e => exact ⟨⟨strOr e "Failed to delete booking", rfl⟩, rfl⟩
    | thrown =>
      exact ⟨⟨"An unexpected error occurred while deleting the booking.", rfl⟩, rfl⟩

theorem one_error_notification_per_failed_request_witness :
    OneErrorToast (handleSearch 0 (.fail (some "Server error"))
      ⟨⟨"500", "400001", "400002", some 600000⟩, [], {}, false, false⟩).2.toasts ∧
    (handleSubmit .thrown ⟨⟨"", "", "", "truck", ""⟩, {}, false⟩).2 = {} :=
  have h := one_error_notification_per_failed_request 0 none
    ⟨.str "v1", .undefined, "Tata Ace", "truck", 1000, 4⟩ (.str "b1") "completed"
    ⟨⟨"500", "400001", "400002", some 600000⟩, [], {}, false, false⟩
    ⟨⟨"", "", "", "truck", ""⟩, {}, false⟩ { bookings := [], loading := false }
    (.fail (some "Server error")) .thrown .thrown rfl rfl rfl
  ⟨(h.1 (by decide)).1, (h.2.2.2.2.1 (by decide)).1⟩

/-- C29 (counterexample): a search form and an add-vehicle form that fail validation make
`handleSearch` and `handleSubmit` return without any notification. -/
theorem validation_failure_without_notification :
    (validateSearchForm 0 ⟨"", "4000", "", none⟩).2 = false ∧
    (handleSearch 0 (.ok none none) ⟨⟨"", "4000", "", none⟩, [], {}, false, false⟩).2.toasts
      = [] ∧
    (validateForm ⟨"", "", "", "truck", ""⟩).2 = false ∧
    (handleSubmit (.ok () none) ⟨⟨"", "", "", "truck", ""⟩, {}, false⟩).2.toasts = [] := by
  decide

end Fleetlink
